import Mathlib

/-!
Shallow embedding of the topic-deduplication and trend-scoring core of the
`pulse` repository (the frontend `features/intelligence` modules plus the
same-day thread-merge component).

Modelling conventions, used consistently below:
* JS `Set` objects are insertion-ordered lists without duplicates
  (`jsAdd` appends only when absent); JS `Map` objects are insertion-ordered
  association lists (`jsSet` updates in place when the key exists, else
  appends), exactly the iteration semantics guaranteed by JS.
* Calendar dates (`YYYY-MM-DD` strings in a fixed local zone in the source)
  are modelled as integer day indices: ISO date strings are
  order-isomorphic to integers, string comparison is integer comparison,
  `getDateOffset` is addition and `daysBetween` is the clamped inclusive
  span.  The `NaN` fallback of `daysBetween` is unreachable for the valid
  dates the model ranges over.
* JS numbers are modelled as `Nat` (the post counts, which the source never
  makes negative) and `ℚ` (the momentum score and the similarity ratios,
  whose values are small exact rationals).
* Text handling is modelled at ASCII granularity: `toLowerCase`, `trim` and
  the `\s` character class are taken on the ASCII subset the repository's
  inputs use, and JS string primitives (`length`, `slice`, `endsWith`,
  `includes`, `split`) are spelled out over the character list of the
  string so that every definition evaluates by kernel reduction.
-/

namespace Pulse

/-- JS `Map.get`: the value of the (unique) binding for the key, if any. -/
def jsGet {κ ν : Type} [DecidableEq κ] (m : List (κ × ν)) (k : κ) : Option ν :=
  (m.find? (fun p => decide (p.1 = k))).map (fun p => p.2)

/-- JS `Map.set`: update in place when the key exists (JS Maps keep the
original insertion position), else append a new binding. -/
def jsSet {κ ν : Type} [DecidableEq κ] (m : List (κ × ν)) (k : κ) (v : ν) : List (κ × ν) :=
  if m.any (fun p => decide (p.1 = k)) then
    m.map (fun p => if p.1 = k then (k, v) else p)
  else m ++ [(k, v)]

/-- JS `Set.add`: append when absent (JS Sets are insertion-ordered). -/
def jsAdd {α : Type} [DecidableEq α] (s : List α) (x : α) : List α :=
  if x ∈ s then s else s ++ [x]

/-- `Array.from(new Set(xs))`: first-occurrence deduplication preserving order. -/
def jsDedup {α : Type} [DecidableEq α] (xs : List α) : List α :=
  xs.foldl jsAdd []

/-- The ASCII part of the JS `\s` class (the repository's inputs contain no
exotic whitespace). -/
def isWs (c : Char) : Bool :=
  c == ' ' || c == '\t' || c == '\n' || c == '\r'

/-- Is the character in `[a-z0-9]`? -/
def isLowerAlnum (c : Char) : Bool :=
  (decide ('a' ≤ c) && decide (c ≤ 'z')) || (decide ('0' ≤ c) && decide (c ≤ '9'))

/-- JS `String.prototype.length` (UTF-16 units; character count on the ASCII
texts modelled here). -/
def strLength (s : String) : Nat :=
  s.data.length

/-- JS `slice(0, n)`. -/
def strTake (s : String) (n : Nat) : String :=
  String.mk (s.data.take n)

/-- JS `endsWith`. -/
def strEndsWith (s suffix : String) : Bool :=
  suffix.data.reverse.isPrefixOf s.data.reverse

/-- Drop the last `n` characters (the `slice(0, -n)` steps of the stemmer). -/
def strDropRight (s : String) (n : Nat) : String :=
  String.mk (s.data.take (s.data.length - n))

/-- Is `needle` a contiguous infix of `hay`? -/
def isInfixChars (needle hay : List Char) : Bool :=
  needle.isPrefixOf hay ||
    match hay with
    | [] => false
    | _ :: t => isInfixChars needle t

/-- JS `a.includes(b)`: substring test. -/
def strIncludes (a b : String) : Bool :=
  isInfixChars b.data a.data

/-- JS `trim` (ASCII whitespace). -/
def strTrim (s : String) : String :=
  String.mk (((s.data.dropWhile isWs).reverse.dropWhile isWs).reverse)

/-- JS `split(sep)` for a single-character separator: `"".split` yields
`[""]`, and consecutive separators yield empty fields. -/
def splitChar (sep : Char) : List Char → List (List Char)
  | [] => [[]]
  | c :: rest =>
    let r := splitChar sep rest
    if c == sep then [] :: r
    else
      match r with
      | [] => [[c]]
      | w :: ws => (c :: w) :: ws

/-- `.replace(/\s+/g, ' ').trim()`: collapsing every whitespace run to a
single space and trimming is the space-intercalation of the maximal
whitespace-free runs. -/
def collapseAndTrim (s : String) : String :=
  String.mk (List.intercalate [' '] ((splitChar ' ' s.data).filter (fun w => w ≠ [])))

/-- `text.toLowerCase().replace(/[^a-z0-9\s]/g, ' ').replace(/\s+/g, ' ').trim()`,
the normalization pipeline shared by the tokenizer (`similarity.ts`), the
whole-text matcher (`normalizeForTextMatch`) and the topic-key builder
(`normalizeTopicTitle`); after lowercasing, every character outside
`[a-z0-9\s]` becomes a space and the whitespace is collapsed. -/
def normalizeText (text : String) : String :=
  collapseAndTrim (String.mk (text.data.map (fun c =>
    let lc := c.toLower
    if isLowerAlnum lc || isWs lc then lc else ' ')))

/-- `similarity.ts` `STOP_WORDS`. -/
def STOP_WORDS : List String :=
  ["a", "an", "and", "are", "as", "at", "be", "by", "for", "from", "in", "into", "is",
   "it", "of", "on", "or", "that", "the", "to", "with", "will", "after", "amid",
   "this", "these", "those", "over", "under", "its", "their", "than"]

/-- `similarity.ts` `stemToken`: cheap suffix stripper, first rule wins,
only for tokens longer than 4 characters. -/
def stemToken (token : String) : String :=
  if strLength token ≤ 4 then token
  else if strEndsWith token "ing" then strDropRight token 3
  else if strEndsWith token "ed" then strDropRight token 2
  else if strEndsWith token "es" then strDropRight token 2
  else if strEndsWith token "s" then strDropRight token 1
  else token

/-- `similarity.ts` `similarityTokenSet`: normalize, split on spaces, stem,
drop tokens of length at most 2 and stop-listed tokens, collect into a Set. -/
def similarityTokenSet (text : String) : List String :=
  jsDedup ((((splitChar ' ' (normalizeText text).data).map (fun w => stemToken (String.mk w))).filter
    (fun token => decide (2 < strLength token) && !(STOP_WORDS.contains token))))

/-- `similarity.ts` `intersectionSize`: count the elements of `a` present in `b`. -/
def intersectionSize (a b : List String) : Nat :=
  (a.filter (fun token => b.contains token)).length

/-- `similarity.ts` `isSimilarTopic`: Jaccard / containment test on token
sets (JS float ratios are exact small rationals here). -/
def isSimilarTopic (a b : List String) : Bool :=
  if a.length = 0 || b.length = 0 then false
  else
    let i := intersectionSize a b
    let u := a.length + b.length - i
    let jaccard : ℚ := if u = 0 then 0 else (i : ℚ) / (u : ℚ)
    let containment : ℚ := (i : ℚ) / ((min a.length b.length : Nat) : ℚ)
    if decide (3 ≤ i) && (decide (28/100 ≤ jaccard) || decide (55/100 ≤ containment)) then true
    else decide (2 ≤ i) && decide (72/100 ≤ containment)

/-- `similarity.ts` `normalizeForTextMatch`: textually the same pipeline as
the tokenizer's normalization. -/
def normalizeForTextMatch (text : String) : String :=
  normalizeText text

/-- `similarity.ts` `charTrigrams`: the set of overlapping length-3
substrings of the whitespace-stripped text. -/
def charTrigrams (text : String) : List String :=
  let compact := text.data.filter (fun c => !isWs c)
  if compact.length < 3 then []
  else jsDedup ((List.range (compact.length - 2)).map
    (fun i => String.mk ((compact.drop i).take 3)))

/-- `similarity.ts` `trigramDice`: Dice coefficient of the two trigram sets. -/
def trigramDice (a b : String) : ℚ :=
  let aTri := charTrigrams a
  let bTri := charTrigrams b
  if aTri.length = 0 || bTri.length = 0 then 0
  else (2 * (intersectionSize aTri bTri) : ℚ) / ((aTri.length + bTri.length : Nat) : ℚ)

/-- `similarity.ts` `isSimilarTopicText`: substring containment for long
normalized strings, else the character-trigram Dice threshold. -/
def isSimilarTopicText (aText bText : String) : Bool :=
  let a := normalizeForTextMatch aText
  let b := normalizeForTextMatch bText
  if a = "" || b = "" then false
  else if decide (24 ≤ strLength a) && decide (24 ≤ strLength b) && (strIncludes a b || strIncludes b a) then
    true
  else decide (72/100 ≤ trigramDice a b)

/-- `storyKey.ts` `ENTITY_HINTS`. -/
def ENTITY_HINTS : List String :=
  ["anthropic", "openai", "claude", "codex", "gemini", "mistral", "meta", "microsoft",
   "google", "pentagon", "trump", "white", "house", "eu", "senate", "fcc", "ftc"]

/-- `storyKey.ts` `EVENT_HINTS`. -/
def EVENT_HINTS : List String :=
  ["pressure", "pressur", "ban", "designat", "risk", "lawsuit", "sue", "fund", "valuation",
   "acquire", "launch", "release", "outage", "breach", "exploit", "vulnerab", "attack",
   "policy", "safety", "military", "classifi", "contract"]

/-- Lexicographic comparison of character lists (JS compares strings by
UTF-16 code units, which is codepoint order on the ASCII texts here). -/
def lexLeChars : List Char → List Char → Bool
  | [], _ => true
  | _ :: _, [] => false
  | a :: as, b :: bs => if a == b then lexLeChars as bs else decide (a < b)

/-- JS string comparison (`sort()` default order / `localeCompare` on the
lowercase ASCII-alphanumeric tokens this code compares). -/
def strLexLe (a b : String) : Bool :=
  lexLeChars a.data b.data

/-- `storyKey.ts` `pickHints`: every hint that matches some token by
substring containment in either direction, deduplicated and sorted
(JS default `Array.sort`, i.e. lexicographic on these ASCII hints). -/
def pickHints (tokens : List String) (hints : List String) : List String :=
  let picked := tokens.foldl (fun acc token =>
    hints.foldl (fun acc hint =>
      if strIncludes token hint || strIncludes hint token then jsAdd acc hint else acc) acc) []
  picked.mergeSort (fun a b => strLexLe a b)

/-- `storyKey.ts` `deriveStoryKey`: hard-coded recurring-story pattern
first, then the entity/event coverage heuristic, else `null`. -/
def deriveStoryKey (title summary keyword : String) : Option String :=
  let text := title ++ " " ++ summary ++ " " ++ keyword
  let tokens := similarityTokenSet text
  let hasAnthropic := tokens.contains "anthropic"
  let hasTrump := tokens.contains "trump"
  let hasPentagon := tokens.contains "pentagon"
  let hasGovConflict := tokens.contains "military" || tokens.contains "classifi" ||
    tokens.contains "designat" || tokens.contains "ban"
  if hasAnthropic && ((hasTrump && hasPentagon) || ((hasTrump || hasPentagon) && hasGovConflict)) then
    some "story:anthropic-us-government-conflict"
  else
    let entities := pickHints tokens ENTITY_HINTS
    let events := pickHints tokens EVENT_HINTS
    if decide (2 ≤ entities.length) && decide (1 ≤ events.length) then
      some ("ent:" ++ String.intercalate "+" (entities.take 4) ++ "|evt:" ++
        String.intercalate "+" (events.take 3))
    else if decide (3 ≤ entities.length) then
      some ("ent:" ++ String.intercalate "+" (entities.take 4))
    else none

/-- JS `toLowerCase` (ASCII). -/
def strToLower (s : String) : String :=
  String.mk (s.data.map Char.toLower)

/-- The `EmergingTopic` row shape (`lib/api.ts`), with dates as day indices
and the nullable `topic_key` / `sample_urls` fields as options. -/
structure EmergingTopic where
  date : Int
  platform : String
  keyword : String
  topic_key : Option String
  topic_title : String
  summary : String
  post_count : Nat
  sample_urls : Option (List String)
  category : String
deriving DecidableEq

/-- `topicKey.ts` `normalizeTopicTitle`: the same lowercase /
alphanumeric-collapse / trim pipeline as the tokenizer normalization. -/
def normalizeTopicTitle (value : String) : String :=
  normalizeText value

/-- `topicKey.ts` `getTopicKey`: a stored non-empty (after trimming)
`topic_key` is returned verbatim, else the key is recomputed from
category, keyword and normalized title. -/
def getTopicKey (topic : EmergingTopic) : String :=
  let computed := String.intercalate "::"
    [strToLower topic.category, strToLower topic.keyword, normalizeTopicTitle topic.topic_title]
  match topic.topic_key with
  | some k => if k ≠ "" && decide (0 < strLength (strTrim k)) then k else computed
  | none => computed

/-- `trendModel.ts` trend-state labels. -/
inductive TrendState where
  | new
  | rising
  | steady
  | fading
deriving DecidableEq

/-- One point of the dense daily series (`{date, posts}`). -/
structure TrendDatum where
  date : Int
  posts : Nat
deriving DecidableEq

/-- `trendModel.ts` `TrendTopic`. -/
structure TrendTopic where
  key : String
  title : String
  keyword : String
  category : String
  primaryUrl : Option String
  todayCount : Nat
  yesterdayCount : Nat
  twoDaysAgoCount : Nat
  todayRank : Option Nat
  yesterdayRank : Option Nat
  totalCount : Nat
  score : ℚ
  firstSeen : Int
  lastSeen : Int
  ongoingDays : Int
  isNewToday : Bool
  trendState : TrendState
  data : List TrendDatum
  urls : List String
deriving DecidableEq

/-- `trendModel.ts` `getDateOffset` on day indices: local-zone calendar-day
addition on valid ISO dates is integer addition. -/
def getDateOffset (dateStr : Int) (deltaDays : Int) : Int :=
  dateStr + deltaDays

/-- `trendModel.ts` `daysBetween`: `max(1, floor((b-a)/DAY_MS) + 1)` on day
indices (the `NaN` fallback of `Date.parse` is unreachable for the valid
dates this model ranges over). -/
def daysBetween (start finish : Int) : Int :=
  max 1 (finish - start + 1)

/-- `trendModel.ts` `trendState` (both final branches return `"steady"`,
kept exactly as in the source). -/
def trendState (today yesterday twoDaysAgo : Nat) (isNewToday : Bool) : TrendState :=
  if isNewToday then .new
  else if today > yesterday then .rising
  else if today < yesterday ∧ yesterday > 0 then .fading
  else if today = yesterday ∧ (today > 0 ∨ twoDaysAgo > 0) then .steady
  else .steady

/-- `trendModel.ts` `buildDocFreqForTrend`: document frequency of every
title token across the topic list (one increment per topic containing the
token). -/
def buildDocFreqForTrend (topics : List TrendTopic) : List (String × Nat) :=
  topics.foldl (fun df topic =>
    (similarityTokenSet topic.title).foldl (fun df token =>
      jsSet df token ((jsGet df token).getD 0 + 1)) df) []

/-- `trendModel.ts` `signatureFromTokens`: the 8 rarest tokens (document
frequency ascending, lexicographic tie-break; unknown tokens count 9999). -/
def signatureFromTokens (tokens : List String) (docFreq : List (String × Nat)) : List String :=
  (((tokens.map (fun token => (token, (jsGet docFreq token).getD 9999))).mergeSort
      (fun a b => decide (a.2 < b.2) || (decide (a.2 = b.2) && strLexLe a.1 b.1))).take 8).map
    (fun item => item.1)

/-- `trendModel.ts` `signatureOverlap`: count of `a`-tokens present in `b`. -/
def signatureOverlap (a b : List String) : Nat :=
  (a.filter (fun token => b.contains token)).length

/-- `data.find(item => item.date === d)?.posts ?? 0`: the series value at a
date, `0` when the date is absent. -/
def seriesAt (data : List TrendDatum) (d : Int) : Nat :=
  ((data.find? (fun item => decide (item.date = d))).map (fun item => item.posts)).getD 0

/-- `trendModel.ts` `recomputeDerivedFields`: re-derive
first/last-seen, the three day counts, total, score, newness, ongoing days
and trend state from the (possibly merged) series. -/
def recomputeDerivedFields (topic : TrendTopic) (todayDate : Int) : TrendTopic :=
  let yesterday := getDateOffset todayDate (-1)
  let twoDaysAgo := getDateOffset todayDate (-2)
  let activeDates := (topic.data.filter (fun item => decide (0 < item.posts))).map
    (fun item => item.date)
  let firstSeen := activeDates.head?.getD todayDate
  let lastSeen := activeDates.getLast?.getD todayDate
  let todayCount := seriesAt topic.data todayDate
  let yesterdayCount := seriesAt topic.data yesterday
  let twoDaysAgoCount := seriesAt topic.data twoDaysAgo
  let totalCount := topic.data.foldl (fun sum item => sum + item.posts) 0
  let score : ℚ := (todayCount : ℚ) + (1/2 : ℚ) * (yesterdayCount : ℚ) - (1/2 : ℚ) * (twoDaysAgoCount : ℚ)
  let isNewToday := decide (firstSeen = todayDate)
  { topic with
    firstSeen := firstSeen
    lastSeen := lastSeen
    todayCount := todayCount
    yesterdayCount := yesterdayCount
    twoDaysAgoCount := twoDaysAgoCount
    totalCount := totalCount
    score := score
    isNewToday := isNewToday
    ongoingDays := daysBetween firstSeen todayDate
    trendState := trendState todayCount yesterdayCount twoDaysAgoCount isNewToday }

/-- Cluster state of the cross-day merge pass (`mergeNearDuplicateTrendTopics`). -/
structure TrendCluster where
  tokenSet : List String
  signature : List String
  matchText : String
  storyKeys : List String
  topic : TrendTopic
deriving DecidableEq

/-- The disjunction the cross-day pass tests a candidate against an
existing cluster with: shared story key, signature overlap at least 3,
signature overlap at least 2 plus token similarity, token similarity, or
whole-text similarity. -/
def trendClusterMatches (cluster : TrendCluster) (candidateStoryKey : Option String)
    (signature : List String) (tokens : List String) (matchText : String) : Bool :=
  (match candidateStoryKey with
   | some k => cluster.storyKeys.contains k
   | none => false) ||
  decide (3 ≤ signatureOverlap cluster.signature signature) ||
  (decide (2 ≤ signatureOverlap cluster.signature signature) &&
    isSimilarTopic cluster.tokenSet tokens) ||
  isSimilarTopic cluster.tokenSet tokens ||
  isSimilarTopicText cluster.matchText matchText

/-- The merged-by-date series of the cross-day merge: sum the two series
per date into a JS Map, then sort the entries by date. -/
def mergeTrendData (a b : List TrendDatum) : List TrendDatum :=
  let mergedByDate :=
    b.foldl (fun m item => jsSet m item.date ((jsGet m item.date).getD 0 + item.posts))
      (a.foldl (fun m item => jsSet m item.date ((jsGet m item.date).getD 0 + item.posts)) [])
  (mergedByDate.map (fun p => TrendDatum.mk p.1 p.2)).mergeSort
    (fun x y => decide (x.date ≤ y.date))

/-- Merging a candidate trend topic into the cluster it matched: merge the
day vectors, prefer the higher-`todayCount` member's title and key, keep
the first truthy primary URL, union the URL lists, re-derive every derived
field, and grow the cluster's token/signature/story-key accumulators and
its capped match text. -/
def mergeTrendCandidate (cluster : TrendCluster) (candidate : TrendTopic)
    (candidateStoryKey : Option String) (tokens signature : List String)
    (matchText : String) (todayDate : Int) : TrendCluster :=
  let keepCandidateTitle := decide (cluster.topic.todayCount < candidate.todayCount)
  let mergedTitle := if keepCandidateTitle then candidate.title else cluster.topic.title
  let firstTruthy := fun (a : Option String) (b : Option String) =>
    match a with
    | some s => if s = "" then b else some s
    | none => b
  let mergedPrimaryUrl := firstTruthy cluster.topic.primaryUrl (firstTruthy candidate.primaryUrl
    (firstTruthy cluster.topic.urls.head? (firstTruthy candidate.urls.head? none)))
  let mergedUrls := jsDedup (cluster.topic.urls ++ candidate.urls)
  let mergedTopic := recomputeDerivedFields
    { cluster.topic with
      key := if keepCandidateTitle then candidate.key else cluster.topic.key
      title := mergedTitle
      primaryUrl := mergedPrimaryUrl
      data := mergeTrendData cluster.topic.data candidate.data
      urls := mergedUrls }
    todayDate
  { tokenSet := tokens.foldl jsAdd cluster.tokenSet
    signature := signature.foldl jsAdd cluster.signature
    matchText := strTake (cluster.matchText ++ " " ++ matchText) 800
    storyKeys :=
      match candidateStoryKey with
      | some k => jsAdd cluster.storyKeys k
      | none => cluster.storyKeys
    topic := mergedTopic }

/-- One step of the cross-day merge pass: tokenize the candidate's title,
build its signature and story key, merge it into the first matching
cluster (scanned in creation order), else append a new singleton cluster. -/
def trendMergeStep (docFreq : List (String × Nat)) (todayDate : Int)
    (clusters : List TrendCluster) (candidate : TrendTopic) : List TrendCluster :=
  let matchText := candidate.title
  let tokens := similarityTokenSet matchText
  let signature := signatureFromTokens tokens docFreq
  let candidateStoryKey := deriveStoryKey candidate.title "" candidate.keyword
  match clusters.findIdx?
      (fun cluster => trendClusterMatches cluster candidateStoryKey signature tokens matchText) with
  | none =>
    clusters ++ [{ tokenSet := tokens
                   signature := signature
                   matchText := matchText
                   storyKeys :=
                     match candidateStoryKey with
                     | some k => [k]
                     | none => []
                   topic := candidate }]
  | some i =>
    clusters.modify
      (fun cluster =>
        mergeTrendCandidate cluster candidate candidateStoryKey tokens signature matchText todayDate)
      i

/-- The cluster list the cross-day pass ends with. -/
def trendClusters (topics : List TrendTopic) (todayDate : Int) : List TrendCluster :=
  topics.foldl (trendMergeStep (buildDocFreqForTrend topics) todayDate) []

/-- `trendModel.ts` `mergeNearDuplicateTrendTopics`. -/
def mergeNearDuplicateTrendTopics (topics : List TrendTopic) (todayDate : Int) : List TrendTopic :=
  (trendClusters topics todayDate).map (fun cluster => cluster.topic)

/-- Per-key accumulator of `buildTrendTopics` (`byKey` entries). -/
structure KeyEntry where
  title : String
  keyword : String
  dayMap : List (Int × Nat)
  urlByDate : List (Int × List String)
  urls : List String
deriving DecidableEq

/-- The freshly-created `byKey` entry for a row whose key is not yet
present. -/
def freshEntry (topic : EmergingTopic) : KeyEntry :=
  { title := topic.topic_title
    keyword := topic.keyword
    dayMap := []
    urlByDate := []
    urls := [] }

/-- The body of the per-row accumulation loop of `buildTrendTopics`,
applied to the key's current entry (or the fresh one): refresh title and
keyword from rows dated today or later; add the row's post count to its
date; extend the per-date URL list and the URL set. -/
def accumEntry (todayDate : Int) (topic : EmergingTopic) (old : Option KeyEntry) : KeyEntry :=
  let entry := old.getD (freshEntry topic)
  let entry :=
    if topic.date ≥ todayDate then
      { entry with title := topic.topic_title, keyword := topic.keyword }
    else entry
  let entry :=
    { entry with
      dayMap := jsSet entry.dayMap topic.date
        ((jsGet entry.dayMap topic.date).getD 0 + topic.post_count) }
  let urlsForDate := topic.sample_urls.getD []
  let entry :=
    if 0 < urlsForDate.length then
      { entry with
        urlByDate := jsSet entry.urlByDate topic.date
          ((jsGet entry.urlByDate topic.date).getD [] ++ urlsForDate) }
    else entry
  { entry with urls := urlsForDate.foldl jsAdd entry.urls }

/-- The per-row accumulation loop of `buildTrendTopics`: skip rows of other
categories, else update the row's key with `accumEntry`. -/
def accumTopic (todayDate : Int) (category : String)
    (byKey : List (String × KeyEntry)) (topic : EmergingTopic) : List (String × KeyEntry) :=
  if topic.category ≠ category then byKey
  else
    let key := getTopicKey topic
    jsSet byKey key (accumEntry todayDate topic (jsGet byKey key))

/-- `Array.from(new Set(topics.map(t => t.date))).sort()`: the sorted
distinct dates of the whole input window. -/
def allDatesOf (topics : List EmergingTopic) : List Int :=
  (jsDedup (topics.map (fun t => t.date))).mergeSort (fun a b => decide (a ≤ b))

/-- Materializing one `TrendTopic` from a `byKey` entry: dense series over
`allDates`, first/last active date (defaulting to today), counts at
offsets 0, -1 and -2 days, total, score, newness, recency-first primary
URL, trend state. -/
def materializeTopic (allDates : List Int) (todayDate yesterday twoDaysAgo : Int)
    (category : String) (key : String) (entry : KeyEntry) : TrendTopic :=
  let activeDates := allDates.filter (fun date => decide (0 < (jsGet entry.dayMap date).getD 0))
  let firstSeen := activeDates.head?.getD todayDate
  let lastSeen := activeDates.getLast?.getD todayDate
  let todayCount := (jsGet entry.dayMap todayDate).getD 0
  let yesterdayCount := (jsGet entry.dayMap yesterday).getD 0
  let twoDaysAgoCount := (jsGet entry.dayMap twoDaysAgo).getD 0
  let totalCount := (entry.dayMap.map (fun p => p.2)).foldl (fun sum n => sum + n) 0
  let score : ℚ := (todayCount : ℚ) + (1/2 : ℚ) * (yesterdayCount : ℚ) - (1/2 : ℚ) * (twoDaysAgoCount : ℚ)
  let isNewToday := decide (firstSeen = todayDate)
  let dateWithPrimaryUrl := ([todayDate, yesterday] ++ activeDates.reverse).find?
    (fun date => decide (0 < ((jsGet entry.urlByDate date).getD []).length))
  let primaryUrl :=
    match dateWithPrimaryUrl with
    | some d => ((jsGet entry.urlByDate d).getD []).head?
    | none => none
  { key := key
    title := entry.title
    keyword := entry.keyword
    category := category
    primaryUrl := primaryUrl
    todayCount := todayCount
    yesterdayCount := yesterdayCount
    twoDaysAgoCount := twoDaysAgoCount
    todayRank := none
    yesterdayRank := none
    totalCount := totalCount
    score := score
    firstSeen := firstSeen
    lastSeen := lastSeen
    ongoingDays := daysBetween firstSeen todayDate
    isNewToday := isNewToday
    trendState := trendState todayCount yesterdayCount twoDaysAgoCount isNewToday
    data := allDates.map (fun date => TrendDatum.mk date ((jsGet entry.dayMap date).getD 0))
    urls := entry.urls }

/-- The today-rank sort order: `(b.todayCount - a.todayCount) || (b.score - a.score)`. -/
def todayLe (a b : TrendTopic) : Bool :=
  decide (b.todayCount < a.todayCount) ||
    (decide (a.todayCount = b.todayCount) && decide (b.score ≤ a.score))

/-- The yesterday-rank sort order:
`(b.yesterdayCount - a.yesterdayCount) || (b.totalCount - a.totalCount)`. -/
def yesterdayLe (a b : TrendTopic) : Bool :=
  decide (b.yesterdayCount < a.yesterdayCount) ||
    (decide (a.yesterdayCount = b.yesterdayCount) && decide (b.totalCount ≤ a.totalCount))

/-- The two rank-assignment loops at the end of `buildTrendTopics`.  The
source sorts the filtered sublists (JS `Array.sort` is stable) and writes
`index + 1` into the shared topic objects; object identity is modelled by
the position in `deduped`. -/
def assignRanks (deduped : List TrendTopic) : List TrendTopic :=
  let indexed := deduped.enum
  let todayRanked := (indexed.filter (fun p => decide (0 < p.2.todayCount))).mergeSort
    (fun p q => todayLe p.2 q.2)
  let yesterdayRanked := (indexed.filter (fun p => decide (0 < p.2.yesterdayCount))).mergeSort
    (fun p q => yesterdayLe p.2 q.2)
  indexed.map (fun p =>
    { p.2 with
      todayRank := (todayRanked.findIdx? (fun q => decide (q.1 = p.1))).map (fun idx => idx + 1)
      yesterdayRank :=
        (yesterdayRanked.findIdx? (fun q => decide (q.1 = p.1))).map (fun idx => idx + 1) })

/-- `trendModel.ts` `buildTrendTopics`: group the window by topic key,
materialize one dense-series topic per key, run the cross-day
near-duplicate merge, then assign today- and yesterday-ranks. -/
def buildTrendTopics (topics : List EmergingTopic) (category : String) (todayDate : Int) :
    List TrendTopic :=
  let yesterday := getDateOffset todayDate (-1)
  let twoDaysAgo := getDateOffset todayDate (-2)
  let allDates := allDatesOf topics
  let byKey := topics.foldl (accumTopic todayDate category) []
  let result := byKey.map (fun p =>
    materializeTopic allDates todayDate yesterday twoDaysAgo category p.1 p.2)
  let deduped := mergeNearDuplicateTrendTopics result todayDate
  assignRanks deduped

/-- A topic link of the same-day thread merge (`{url, platform}`). -/
structure TopicLink where
  url : String
  platform : String
deriving DecidableEq

/-- The same-day `MergedTopic`, including the clustering accumulators the
source keeps on the same record. -/
structure MergedTopic where
  topicTitle : String
  summary : String
  category : String
  postCount : Nat
  links : List TopicLink
  platforms : List String
  tokenSet : List String
  signature : List String
  matchText : String
  storyKeys : List String
deriving DecidableEq

/-- Same-day merge `buildTokenDocFreq`: document frequency over
`title + " " + summary.slice(0, 220)` of every row. -/
def buildTokenDocFreq (rows : List EmergingTopic) : List (String × Nat) :=
  rows.foldl (fun df row =>
    (similarityTokenSet (row.topic_title ++ " " ++ strTake row.summary 220)).foldl
      (fun df token => jsSet df token ((jsGet df token).getD 0 + 1)) df) []

/-- Same-day merge `buildSignatureFromTokenSet` (textually identical to
`signatureFromTokens` in the source). -/
def buildSignatureFromTokenSet (tokens : List String) (docFreq : List (String × Nat)) :
    List String :=
  signatureFromTokens tokens docFreq

/-- Same-day merge `platformBadge`. -/
def platformBadge (platform : String) : String :=
  let p := strToLower platform
  if p = "hackernews" then "HN"
  else if p = "reddit" then "Reddit"
  else if p = "twitter" then "X"
  else platform

/-- The disjunction the same-day pass tests a row against an existing
cluster with (same five rules as the cross-day pass). -/
def mergedTopicMatches (cluster : MergedTopic) (rowStoryKey : Option String)
    (signature : List String) (tokens : List String) (matchText : String) : Bool :=
  (match rowStoryKey with
   | some k => cluster.storyKeys.contains k
   | none => false) ||
  decide (3 ≤ signatureOverlap cluster.signature signature) ||
  (decide (2 ≤ signatureOverlap cluster.signature signature) &&
    isSimilarTopic cluster.tokenSet tokens) ||
  isSimilarTopic cluster.tokenSet tokens ||
  isSimilarTopicText cluster.matchText matchText

/-- Merging a row into the same-day cluster it matched: sum post counts,
keep the longer summary, append a new platform badge, append the row's
links, grow the token/signature/story-key accumulators and the capped
match text. -/
def mergeRowIntoCluster (cluster : MergedTopic) (row : EmergingTopic)
    (rowStoryKey : Option String) (tokens signature : List String)
    (matchText : String) (links : List TopicLink) (platform : String) : MergedTopic :=
  { cluster with
    postCount := cluster.postCount + row.post_count
    summary := if strLength cluster.summary < strLength row.summary then row.summary
      else cluster.summary
    platforms := if cluster.platforms.contains platform then cluster.platforms
      else cluster.platforms ++ [platform]
    links := cluster.links ++ links
    tokenSet := tokens.foldl jsAdd cluster.tokenSet
    signature := signature.foldl jsAdd cluster.signature
    storyKeys :=
      match rowStoryKey with
      | some k => jsAdd cluster.storyKeys k
      | none => cluster.storyKeys
    matchText := strTake (cluster.matchText ++ " " ++ matchText) 1200 }

/-- One step of the same-day merge pass: first-fit scan in cluster-creation
order, else a new singleton cluster. -/
def sameDayStep (category : String) (docFreq : List (String × Nat))
    (clusters : List MergedTopic) (row : EmergingTopic) : List MergedTopic :=
  let matchText := row.topic_title ++ " " ++ strTake row.summary 220
  let tokens := similarityTokenSet matchText
  let signature := buildSignatureFromTokenSet tokens docFreq
  let rowStoryKey := deriveStoryKey row.topic_title row.summary row.keyword
  let links := (row.sample_urls.getD []).map (fun url => TopicLink.mk url row.platform)
  let platform := platformBadge row.platform
  match clusters.findIdx?
      (fun cluster => mergedTopicMatches cluster rowStoryKey signature tokens matchText) with
  | none =>
    clusters ++ [{ topicTitle := row.topic_title
                   summary := row.summary
                   category := category
                   postCount := row.post_count
                   links := links
                   platforms := [platform]
                   tokenSet := tokens
                   signature := signature
                   matchText := matchText
                   storyKeys :=
                     match rowStoryKey with
                     | some k => [k]
                     | none => [] }]
  | some i =>
    clusters.modify
      (fun cluster => mergeRowIntoCluster cluster row rowStoryKey tokens signature matchText
        links platform)
      i

/-- The category-filtered rows, sorted by post count descending, that the
same-day pass clusters. -/
def sameDayRows (items : List EmergingTopic) (category : String) : List EmergingTopic :=
  (items.filter (fun item => decide (item.category = category))).mergeSort
    (fun a b => decide (b.post_count ≤ a.post_count))

/-- The cluster list the same-day pass ends with. -/
def sameDayClusters (items : List EmergingTopic) (category : String) : List MergedTopic :=
  let rows := sameDayRows items category
  rows.foldl (sameDayStep category (buildTokenDocFreq rows)) []

/-- Same-day `mergeTopics`: cluster the day's rows, then sort the clusters
by summed post count descending. -/
def mergeTopics (items : List EmergingTopic) (category : String) : List MergedTopic :=
  (sameDayClusters items category).mergeSort (fun a b => decide (b.postCount ≤ a.postCount))

example : similarityTokenSet "OpenAI launches GPT-6!" = ["openai", "launch", "gpt"] := by decide
example : stemToken "banned" = "bann" := by decide
example : stemToken "classified" = "classifi" := by decide
unseal Rat.inv Rat.mul Rat.add Rat.sub Nat.gcd in
example : isSimilarTopic ["alpha", "beta", "gamma"] ["alpha", "beta", "gamma", "delta"] = true := by decide
example : isSimilarTopic [] ["alpha"] = false := by decide
unseal Rat.inv Rat.mul Rat.add Rat.sub Nat.gcd in
example : isSimilarTopicText "OpenAI launches GPT-6" "GPT-6 launch by OpenAI!!" = false := by decide
unseal Rat.inv Rat.mul Rat.add Rat.sub Nat.gcd in
example : isSimilarTopicText "OpenAI launches GPT-6 today" "openai Launches  gpt-6 TODAY" = true := by decide

unseal List.merge List.mergeSort in
example : deriveStoryKey "Anthropic under Trump pentagon pressure" "" "" =
    some "story:anthropic-us-government-conflict" := by decide
unseal List.merge List.mergeSort in
example : deriveStoryKey "anthropic trump banned" "" "" = some "ent:anthropic+trump|evt:ban" := by
  decide
example : getTopicKey ⟨5, "reddit", "Claude Code", none, " New   Release!! ", "", 3, none, "Ecosystem"⟩ =
    "ecosystem::claude code::new release" := by decide
example : getTopicKey ⟨5, "reddit", "k", some "stored", "T", "", 3, none, "c"⟩ = "stored" := by decide

/-- Input rows for the three-topic ranking scenario: todayCounts 10, 10, 4
and scores 5, 7, 9 for titles alpha bravo / delta echo / foxtrot golf. -/
def rankDemoRows : List EmergingTopic :=
  [⟨10, "reddit", "ka", none, "alpha bravo", "", 10, none, "c"⟩,
   ⟨8, "reddit", "ka", none, "alpha bravo", "", 10, none, "c"⟩,
   ⟨10, "reddit", "kb", none, "delta echo", "", 10, none, "c"⟩,
   ⟨8, "reddit", "kb", none, "delta echo", "", 6, none, "c"⟩,
   ⟨10, "reddit", "kc", none, "foxtrot golf", "", 4, none, "c"⟩,
   ⟨9, "reddit", "kc", none, "foxtrot golf", "", 10, none, "c"⟩]

unseal Rat.inv Rat.mul Rat.add Rat.sub Nat.gcd List.merge List.mergeSort in
example :
    ((buildTrendTopics rankDemoRows "c" 10).map
      (fun t => (t.title, t.todayRank, t.yesterdayRank, t.score))) =
    [("alpha bravo", some 2, none, 5), ("delta echo", some 1, none, 7),
     ("foxtrot golf", some 3, some 1, 9)] := by decide

/-- Two same-day rows that cluster together and carry the same sample URL
from different platforms. -/
def dupLinkRows : List EmergingTopic :=
  [⟨10, "reddit", "kq", none, "quantum widget frobnicator", "", 5,
     some ["http://example.com/a"], "ecosystem"⟩,
   ⟨10, "twitter", "kq", none, "quantum widget frobnicator", "", 3,
     some ["http://example.com/a"], "ecosystem"⟩]

unseal Rat.inv Rat.mul Rat.add Rat.sub Nat.gcd List.merge List.mergeSort in
example :
    ((mergeTopics dupLinkRows "ecosystem").map
      (fun m => (m.links.map (fun l => (l.url, l.platform)), m.postCount, m.platforms))) =
    [([("http://example.com/a", "reddit"), ("http://example.com/a", "twitter")], 8,
      ["Reddit", "X"])] := by decide

/-- A trend topic literal used by the signature-growth scenario. -/
def sigDemoTopic (title : String) (key : String) : TrendTopic :=
  { key := key
    title := title
    keyword := ""
    category := "c"
    primaryUrl := none
    todayCount := 1
    yesterdayCount := 0
    twoDaysAgoCount := 0
    todayRank := none
    yesterdayRank := none
    totalCount := 1
    score := 1
    firstSeen := 10
    lastSeen := 10
    ongoingDays := 1
    isNewToday := true
    trendState := .new
    data := [⟨10, 1⟩]
    urls := [] }

/-- Two cross-day topics that merge through the hard-coded story key while
their signatures are almost disjoint. -/
def sigDemoTopics : List TrendTopic :=
  [sigDemoTopic "anthropic trump pentagon boulder canyon dolphin elephant falcon garden harbor" "k1",
   sigDemoTopic "anthropic trump pentagon island jungle kettle lantern meadow needle orchid" "k2"]

unseal Rat.inv Rat.mul Rat.add Rat.sub Nat.gcd List.merge List.mergeSort in
example : ((trendClusters sigDemoTopics 10).map (fun c => c.signature.length)) = [15] := by decide

theorem mem_jsAdd {α : Type} [DecidableEq α] (s : List α) (x y : α) :
    y ∈ jsAdd s x ↔ y ∈ s ∨ y = x := by
  unfold jsAdd
  split
  · next h =>
    constructor
    · exact fun hy => Or.inl hy
    · rintro (hy | rfl)
      · exact hy
      · exact h
  · simp

theorem nodup_jsAdd {α : Type} [DecidableEq α] {s : List α} (x : α) (hs : s.Nodup) :
    (jsAdd s x).Nodup := by
  unfold jsAdd
  split
  · exact hs
  · next h =>
    refine hs.append (List.nodup_singleton x) ?_
    intro a ha hax
    rw [List.mem_singleton] at hax
    subst hax
    exact h ha

theorem mem_foldl_jsAdd {α : Type} [DecidableEq α] (l : List α) :
    ∀ (s : List α) (y : α), y ∈ l.foldl jsAdd s ↔ y ∈ s ∨ y ∈ l := by
  induction l with
  | nil => simp
  | cons a t ih =>
    intro s y
    simp only [List.foldl_cons, ih, mem_jsAdd, List.mem_cons]
    tauto

theorem nodup_foldl_jsAdd {α : Type} [DecidableEq α] (l : List α) :
    ∀ (s : List α), s.Nodup → (l.foldl jsAdd s).Nodup := by
  induction l with
  | nil => exact fun s h => h
  | cons a t ih =>
    intro s hs
    exact ih (jsAdd s a) (nodup_jsAdd a hs)

theorem mem_jsDedup {α : Type} [DecidableEq α] (l : List α) (y : α) :
    y ∈ jsDedup l ↔ y ∈ l := by
  unfold jsDedup
  simp [mem_foldl_jsAdd]

theorem nodup_jsDedup {α : Type} [DecidableEq α] (l : List α) : (jsDedup l).Nodup :=
  nodup_foldl_jsAdd l [] List.nodup_nil

theorem jsGet_eq_none {κ ν : Type} [DecidableEq κ] (m : List (κ × ν)) (k : κ) :
    jsGet m k = none ↔ k ∉ m.map Prod.fst := by
  unfold jsGet
  simp only [Option.map_eq_none', List.find?_eq_none, decide_eq_true_eq, List.mem_map]
  constructor
  · rintro h ⟨p, hp, rfl⟩
    exact h p hp rfl
  · rintro h p hp rfl
    exact h ⟨p, hp, rfl⟩

theorem jsGet_isSome_mem {κ ν : Type} [DecidableEq κ] {m : List (κ × ν)} {k : κ} {v : ν}
    (h : jsGet m k = some v) : (k, v) ∈ m := by
  unfold jsGet at h
  simp only [Option.map_eq_some'] at h
  obtain ⟨p, hp, rfl⟩ := h
  have hmem := List.mem_of_find?_eq_some hp
  have hfst := List.find?_some hp
  simp only [decide_eq_true_eq] at hfst
  have : p = (k, p.2) := by
    cases p
    simp_all
  rwa [← this]

theorem map_fst_jsSet {κ ν : Type} [DecidableEq κ] (m : List (κ × ν)) (k : κ) (v : ν) :
    (jsSet m k v).map Prod.fst =
      if k ∈ m.map Prod.fst then m.map Prod.fst else m.map Prod.fst ++ [k] := by
  unfold jsSet
  have hany : (m.any fun p => decide (p.1 = k)) = true ↔ k ∈ m.map Prod.fst := by
    simp only [List.any_eq_true, decide_eq_true_eq, List.mem_map]
  split
  · next h =>
    rw [if_pos (hany.mp h)]
    rw [List.map_map]
    refine List.map_congr_left ?_
    intro p _
    by_cases hpk : p.1 = k
    · simp [hpk]
    · simp [hpk]
  · next h =>
    rw [if_neg (fun hk => h (hany.mpr hk))]
    simp

theorem mem_map_fst_jsSet {κ ν : Type} [DecidableEq κ] (m : List (κ × ν)) (k d : κ) (v : ν) :
    d ∈ (jsSet m k v).map Prod.fst ↔ d ∈ m.map Prod.fst ∨ d = k := by
  rw [map_fst_jsSet]
  split
  · next h =>
    constructor
    · exact fun hd => Or.inl hd
    · rintro (hd | rfl)
      · exact hd
      · exact h
  · simp

theorem nodup_map_fst_jsSet {κ ν : Type} [DecidableEq κ] {m : List (κ × ν)} (k : κ) (v : ν)
    (h : (m.map Prod.fst).Nodup) : ((jsSet m k v).map Prod.fst).Nodup := by
  rw [map_fst_jsSet]
  split
  · exact h
  · next hk =>
    refine h.append (List.nodup_singleton k) ?_
    intro a ha hak
    rw [List.mem_singleton] at hak
    subst hak
    exact hk ha

theorem mem_of_mem_jsSet {κ ν : Type} [DecidableEq κ] {m : List (κ × ν)} {k : κ} {v : ν}
    {p : κ × ν} (h : p ∈ jsSet m k v) : p ∈ m ∨ p = (k, v) := by
  unfold jsSet at h
  split at h
  · simp only [List.mem_map] at h
    obtain ⟨q, hq, rfl⟩ := h
    by_cases hqk : q.1 = k
    · simp [hqk]
    · simp only [if_neg hqk]
      exact Or.inl hq
  · simpa using h

theorem int_le_trans_bool : ∀ a b c : Int,
    decide (a ≤ b) = true → decide (b ≤ c) = true → decide (a ≤ c) = true := by
  intro a b c hab hbc
  simp only [decide_eq_true_eq] at *
  omega

theorem int_le_total_bool : ∀ a b : Int, (decide (a ≤ b) || decide (b ≤ a)) = true := by
  intro a b
  simp only [Bool.or_eq_true, decide_eq_true_eq]
  omega

theorem mem_allDatesOf (topics : List EmergingTopic) (d : Int) :
    d ∈ allDatesOf topics ↔ d ∈ topics.map (fun t => t.date) := by
  unfold allDatesOf
  rw [(List.mergeSort_perm _ _).mem_iff, mem_jsDedup]

theorem nodup_allDatesOf (topics : List EmergingTopic) : (allDatesOf topics).Nodup :=
  ((List.mergeSort_perm _ _).nodup_iff).mpr (nodup_jsDedup _)

theorem sorted_allDatesOf (topics : List EmergingTopic) :
    (allDatesOf topics).Pairwise (· < ·) := by
  have hle : (allDatesOf topics).Pairwise (fun a b : Int => decide (a ≤ b) = true) :=
    List.sorted_mergeSort int_le_trans_bool int_le_total_bool _
  have hne : (allDatesOf topics).Pairwise (· ≠ ·) := nodup_allDatesOf topics
  refine (hle.and hne).imp ?_
  rintro a b ⟨hab, hne⟩
  simp only [decide_eq_true_eq] at hab
  omega

theorem eq_of_pairwise_lt_of_mem_iff : ∀ {l₁ l₂ : List Int},
    l₁.Pairwise (· < ·) → l₂.Pairwise (· < ·) → (∀ x, x ∈ l₁ ↔ x ∈ l₂) → l₁ = l₂ := by
  intro l₁ l₂ h₁ h₂ hmem
  haveI : IsAntisymm Int (· < ·) := ⟨fun a b hab hba => absurd hba (lt_asymm hab)⟩
  have hn₁ : l₁.Nodup := h₁.imp ne_of_lt
  have hn₂ : l₂.Nodup := h₂.imp ne_of_lt
  exact List.eq_of_perm_of_sorted ((List.perm_ext_iff_of_nodup hn₁ hn₂).mpr hmem) h₁ h₂

theorem seriesAt_map_dates (dates : List Int) (f : Int → Nat) (d : Int) :
    seriesAt (dates.map (fun x => TrendDatum.mk x (f x))) d = if d ∈ dates then f d else 0 := by
  induction dates with
  | nil => rfl
  | cons a t ih =>
    simp only [List.map_cons]
    unfold seriesAt at ih ⊢
    by_cases had : a = d
    · subst had
      rw [List.find?_cons_of_pos _ (by simp)]
      simp
    · have hne : ¬ d = a := fun h => had h.symm
      rw [List.find?_cons_of_neg _ (by simpa using had)]
      rw [ih]
      simp [List.mem_cons, hne]

/-- The consistency of a `TrendTopic`'s derived fields with its own series:
the three counts are the series values at offsets 0, -1 and -2 days from
the reference date, the score is the momentum formula over those counts,
newness is `firstSeen == today`, and the trend state is the classifier
applied to those fields. -/
def derivedConsistent (todayDate : Int) (t : TrendTopic) : Prop :=
  t.todayCount = seriesAt t.data todayDate ∧
  t.yesterdayCount = seriesAt t.data (getDateOffset todayDate (-1)) ∧
  t.twoDaysAgoCount = seriesAt t.data (getDateOffset todayDate (-2)) ∧
  t.score = (t.todayCount : ℚ) + (1/2 : ℚ) * (t.yesterdayCount : ℚ) -
    (1/2 : ℚ) * (t.twoDaysAgoCount : ℚ) ∧
  t.isNewToday = decide (t.firstSeen = todayDate) ∧
  t.trendState = trendState t.todayCount t.yesterdayCount t.twoDaysAgoCount t.isNewToday

theorem derivedConsistent_recompute (t : TrendTopic) (todayDate : Int) :
    derivedConsistent todayDate (recomputeDerivedFields t todayDate) :=
  ⟨rfl, rfl, rfl, rfl, rfl, rfl⟩

theorem data_recompute (t : TrendTopic) (todayDate : Int) :
    (recomputeDerivedFields t todayDate).data = t.data :=
  rfl

theorem derivedConsistent_materializeTopic (allDates : List Int) (todayDate : Int)
    (category key : String) (entry : KeyEntry)
    (hkeys : ∀ d ∈ entry.dayMap.map Prod.fst, d ∈ allDates) :
    derivedConsistent todayDate
      (materializeTopic allDates todayDate (getDateOffset todayDate (-1))
        (getDateOffset todayDate (-2)) category key entry) := by
  have hget : ∀ d : Int, d ∉ allDates → (jsGet entry.dayMap d).getD 0 = 0 := by
    intro d hd
    cases hjs : jsGet entry.dayMap d with
    | none => rfl
    | some v =>
      exact absurd (hkeys d (List.mem_map.mpr ⟨(d, v), jsGet_isSome_mem hjs, rfl⟩)) hd
  have hseries : ∀ d : Int,
      seriesAt (allDates.map (fun date => TrendDatum.mk date ((jsGet entry.dayMap date).getD 0))) d
        = (jsGet entry.dayMap d).getD 0 := by
    intro d
    rw [seriesAt_map_dates]
    split
    · rfl
    · next hd => exact (hget d hd).symm
  exact ⟨(hseries todayDate).symm, (hseries _).symm, (hseries _).symm, rfl, rfl, rfl⟩

theorem dates_materializeTopic (allDates : List Int) (todayDate yesterday twoDaysAgo : Int)
    (category key : String) (entry : KeyEntry) :
    (materializeTopic allDates todayDate yesterday twoDaysAgo category key entry).data.map
      (fun x => x.date) = allDates := by
  unfold materializeTopic
  simp [List.map_map, Function.comp_def]

theorem mem_map_fst_foldl_insert {items : List TrendDatum} :
    ∀ (m : List (Int × Nat)) (d : Int),
      d ∈ ((items.foldl
          (fun m item => jsSet m item.date ((jsGet m item.date).getD 0 + item.posts)) m).map
        Prod.fst) ↔
        d ∈ m.map Prod.fst ∨ d ∈ items.map (fun x => x.date) := by
  induction items with
  | nil => simp
  | cons a t ih =>
    intro m d
    simp only [List.foldl_cons, ih, mem_map_fst_jsSet, List.map_cons, List.mem_cons]
    tauto

theorem nodup_map_fst_foldl_insert {items : List TrendDatum} :
    ∀ (m : List (Int × Nat)), (m.map Prod.fst).Nodup →
      ((items.foldl
          (fun m item => jsSet m item.date ((jsGet m item.date).getD 0 + item.posts)) m).map
        Prod.fst).Nodup := by
  induction items with
  | nil => exact fun m h => h
  | cons a t ih =>
    intro m hm
    exact ih _ (nodup_map_fst_jsSet _ _ hm)

theorem trendDatum_le_trans : ∀ a b c : TrendDatum,
    decide (a.date ≤ b.date) = true → decide (b.date ≤ c.date) = true →
      decide (a.date ≤ c.date) = true := by
  intro a b c h₁ h₂
  simp only [decide_eq_true_eq] at *
  omega

theorem trendDatum_le_total : ∀ a b : TrendDatum,
    (decide (a.date ≤ b.date) || decide (b.date ≤ a.date)) = true := by
  intro a b
  simp only [Bool.or_eq_true, decide_eq_true_eq]
  omega

theorem dates_mergeTrendData {L : List Int} {a b : List TrendDatum}
    (hL : L.Pairwise (· < ·))
    (ha : a.map (fun x => x.date) = L) (hb : b.map (fun x => x.date) = L) :
    (mergeTrendData a b).map (fun x => x.date) = L := by
  unfold mergeTrendData
  set entries :=
    b.foldl (fun m item => jsSet m item.date ((jsGet m item.date).getD 0 + item.posts))
      (a.foldl (fun m item => jsSet m item.date ((jsGet m item.date).getD 0 + item.posts)) [])
    with hentries
  have hmem : ∀ d : Int, d ∈ entries.map Prod.fst ↔ d ∈ L := by
    intro d
    rw [hentries, mem_map_fst_foldl_insert, mem_map_fst_foldl_insert]
    simp [ha, hb]
  have hnodup : (entries.map Prod.fst).Nodup := by
    rw [hentries]
    exact nodup_map_fst_foldl_insert _ (nodup_map_fst_foldl_insert _ (by simp))
  have hperm :
      ((entries.map (fun p => TrendDatum.mk p.1 p.2)).mergeSort
          (fun x y => decide (x.date ≤ y.date))).map (fun x => x.date)
        |>.Perm (entries.map Prod.fst) := by
    have h₁ := (List.mergeSort_perm (entries.map (fun p => TrendDatum.mk p.1 p.2))
      (fun x y => decide (x.date ≤ y.date))).map (fun x => x.date)
    rw [List.map_map] at h₁
    exact h₁
  have hsorted :
      (((entries.map (fun p => TrendDatum.mk p.1 p.2)).mergeSort
          (fun x y => decide (x.date ≤ y.date))).map (fun x => x.date)).Pairwise (· < ·) := by
    have hle := List.sorted_mergeSort trendDatum_le_trans trendDatum_le_total
      (entries.map (fun p => TrendDatum.mk p.1 p.2))
    have hle' : (((entries.map (fun p => TrendDatum.mk p.1 p.2)).mergeSort
        (fun x y => decide (x.date ≤ y.date))).map (fun x => x.date)).Pairwise (· ≤ ·) := by
      rw [List.pairwise_map]
      exact hle.imp (fun h => by simpa using h)
    have hne : (((entries.map (fun p => TrendDatum.mk p.1 p.2)).mergeSort
        (fun x y => decide (x.date ≤ y.date))).map (fun x => x.date)).Nodup :=
      (hperm.nodup_iff).mpr hnodup
    refine (hle'.and hne).imp ?_
    rintro x y ⟨hxy, hne⟩
    omega
  refine eq_of_pairwise_lt_of_mem_iff hsorted hL ?_
  intro x
  rw [hperm.mem_iff, hmem]

theorem mem_dayMap_accumEntry (todayDate : Int) (topic : EmergingTopic) (old : Option KeyEntry)
    (d : Int) (hd : d ∈ (accumEntry todayDate topic old).dayMap.map Prod.fst) :
    d ∈ (old.getD (freshEntry topic)).dayMap.map Prod.fst ∨ d = topic.date := by
  unfold accumEntry at hd
  dsimp only at hd
  split at hd
  · split at hd
    · rw [mem_map_fst_jsSet] at hd
      exact hd
    · rw [mem_map_fst_jsSet] at hd
      exact hd
  · split at hd
    · rw [mem_map_fst_jsSet] at hd
      exact hd
    · rw [mem_map_fst_jsSet] at hd
      exact hd

theorem accum_dayMap_keys (todayDate : Int) (category : String) (Q : Int → Prop) :
    ∀ (ts : List EmergingTopic) (acc : List (String × KeyEntry)),
      (∀ t ∈ ts, Q t.date) →
      (∀ p ∈ acc, ∀ d ∈ p.2.dayMap.map Prod.fst, Q d) →
      ∀ p ∈ ts.foldl (accumTopic todayDate category) acc, ∀ d ∈ p.2.dayMap.map Prod.fst, Q d := by
  intro ts
  induction ts with
  | nil =>
    intro acc _ hacc
    exact hacc
  | cons t rest ih =>
    intro acc hts hacc
    refine ih _ (fun x hx => hts x (List.mem_cons_of_mem _ hx)) ?_
    intro p hp d hd
    unfold accumTopic at hp
    split at hp
    · exact hacc p hp d hd
    · dsimp only at hp
      rcases mem_of_mem_jsSet hp with hmem | heq
      · exact hacc p hmem d hd
      · subst heq
        rcases mem_dayMap_accumEntry todayDate t _ d hd with hold | rfl
        · cases hjs : jsGet acc (getTopicKey t) with
          | none =>
            rw [hjs] at hold
            simp [freshEntry] at hold
          | some e =>
            rw [hjs] at hold
            exact hacc _ (jsGet_isSome_mem hjs) d hold
        · exact hts t (List.mem_cons_self _ _)

theorem mem_modify {α : Type} (f : α → α) (i : Nat) (l : List α) :
    ∀ x ∈ List.modify f i l, x ∈ l ∨ ∃ c ∈ l, x = f c := by
  intro x hx
  rw [List.mem_iff_getElem] at hx
  obtain ⟨j, hj, hx⟩ := hx
  rw [List.getElem_modify] at hx
  have hjl : j < l.length := by simpa [List.length_modify] using hj
  split at hx
  · exact Or.inr ⟨l[j], List.getElem_mem hjl, hx.symm⟩
  · exact Or.inl (hx ▸ List.getElem_mem hjl)

theorem trendClusters_topicInv (P : TrendTopic → Prop)
    (docFreq : List (String × Nat)) (todayDate : Int)
    (hmerge : ∀ (cluster : TrendCluster) (candidate : TrendTopic) sk tok sig mt,
      P cluster.topic → P candidate →
      P (mergeTrendCandidate cluster candidate sk tok sig mt todayDate).topic) :
    ∀ (topics : List TrendTopic) (acc : List TrendCluster),
      (∀ t ∈ topics, P t) → (∀ cl ∈ acc, P cl.topic) →
      ∀ cl ∈ topics.foldl (trendMergeStep docFreq todayDate) acc, P cl.topic := by
  intro topics
  induction topics with
  | nil =>
    intro acc _ hacc
    exact hacc
  | cons c rest ih =>
    intro acc htop hacc
    refine ih _ (fun t ht => htop t (List.mem_cons_of_mem _ ht)) ?_
    intro cl hcl
    unfold trendMergeStep at hcl
    dsimp only at hcl
    split at hcl
    · rcases List.mem_append.mp hcl with h | h
      · exact hacc cl h
      · rw [List.mem_singleton] at h
        subst h
        exact htop c (List.mem_cons_self _ _)
    · rcases mem_modify _ _ _ cl hcl with h | ⟨c0, hc0, rfl⟩
      · exact hacc cl h
      · exact hmerge c0 c _ _ _ _ (hacc c0 hc0) (htop c (List.mem_cons_self _ _))

theorem mem_assignRanks (l : List TrendTopic) :
    ∀ t ∈ assignRanks l, ∃ t0 ∈ l, ∃ r1 r2 : Option Nat,
      t = { t0 with todayRank := r1, yesterdayRank := r2 } := by
  intro t ht
  unfold assignRanks at ht
  dsimp only at ht
  rw [List.mem_map] at ht
  obtain ⟨p, hp, rfl⟩ := ht
  obtain ⟨i, x⟩ := p
  obtain ⟨hi, hx⟩ := List.mem_enum hp
  exact ⟨x, hx ▸ List.getElem_mem hi, _, _, rfl⟩

theorem buildTrendTopics_inv (topics : List EmergingTopic) (category : String) (todayDate : Int) :
    ∀ t ∈ buildTrendTopics topics category todayDate,
      derivedConsistent todayDate t ∧ t.data.map (fun x => x.date) = allDatesOf topics := by
  intro t ht
  unfold buildTrendTopics at ht
  dsimp only at ht
  obtain ⟨t0, ht0, r1, r2, rfl⟩ := mem_assignRanks _ t ht
  have ht0P : derivedConsistent todayDate t0 ∧ t0.data.map (fun x => x.date) = allDatesOf topics := by
    unfold mergeNearDuplicateTrendTopics at ht0
    rw [List.mem_map] at ht0
    obtain ⟨cl, hcl, rfl⟩ := ht0
    refine trendClusters_topicInv
      (P := fun t => derivedConsistent todayDate t ∧ t.data.map (fun x => x.date) = allDatesOf topics)
      _ todayDate ?_ _ _ ?_ (by simp) cl hcl
    · intro cluster candidate sk tok sig mt hcluster hcand
      refine ⟨derivedConsistent_recompute _ _, ?_⟩
      have hdata : (mergeTrendCandidate cluster candidate sk tok sig mt todayDate).topic.data =
          mergeTrendData cluster.topic.data candidate.data := rfl
      rw [hdata]
      exact dates_mergeTrendData (sorted_allDatesOf topics) hcluster.2 hcand.2
    · intro t ht
      rw [List.mem_map] at ht
      obtain ⟨p, hp, rfl⟩ := ht
      have hkeys : ∀ d ∈ p.2.dayMap.map Prod.fst, d ∈ allDatesOf topics := by
        intro d hd
        refine accum_dayMap_keys todayDate category (fun d => d ∈ allDatesOf topics) topics [] ?_
          (by simp) p hp d hd
        intro x hx
        rw [mem_allDatesOf]
        exact List.mem_map.mpr ⟨x, hx, rfl⟩
      exact ⟨derivedConsistent_materializeTopic _ _ _ _ _ hkeys,
        dates_materializeTopic _ _ _ _ _ _ _⟩
  exact ht0P

/-- The trend-state decision procedure exactly as the specification words
it: `isNewToday` first, then rising on `today > yesterday`, then fading on
`today < yesterday` with positive yesterday, else steady (which therefore
covers both `today == yesterday > 0` and `today == yesterday == 0` with
earlier history). -/
def trendStateSpec (today yesterday : Nat) (isNewToday : Bool) : TrendState :=
  if isNewToday then .new
  else if today > yesterday then .rising
  else if today < yesterday ∧ yesterday > 0 then .fading
  else .steady

theorem trendState_eq_spec (today yesterday twoDaysAgo : Nat) (isNewToday : Bool) :
    trendState today yesterday twoDaysAgo isNewToday = trendStateSpec today yesterday isNewToday := by
  unfold trendState trendStateSpec
  split_ifs <;> rfl

instance : Inhabited TrendTopic :=
  ⟨{ key := ""
     title := ""
     keyword := ""
     category := ""
     primaryUrl := none
     todayCount := 0
     yesterdayCount := 0
     twoDaysAgoCount := 0
     todayRank := none
     yesterdayRank := none
     totalCount := 0
     score := 0
     firstSeen := 0
     lastSeen := 0
     ongoingDays := 1
     isNewToday := false
     trendState := .steady
     data := []
     urls := [] }⟩

/-- A topic whose series is today 10, yesterday 4, two days ago 6 (for
reference date 10), the score example of the specification. -/
def scoreDemoTopic : TrendTopic :=
  { (default : TrendTopic) with data := [⟨8, 6⟩, ⟨9, 4⟩, ⟨10, 10⟩] }

/-- A topic active only two days ago, whose momentum score is negative. -/
def negScoreDemoTopic : TrendTopic :=
  { (default : TrendTopic) with data := [⟨8, 6⟩] }

/-- Claim C1: every `TrendTopic` produced by `buildTrendTopics` (including
topics rebuilt after a cross-day merge) carries the trend state obtained by
evaluating, in order: `isNewToday` gives new; else `today > yesterday`
gives rising; else `today < yesterday` with `yesterday > 0` gives fading;
else steady.  Concretely: today 5, yesterday 5, twoDaysAgo 0, not new is
steady; today 3, yesterday 7 is fading; a topic first seen today is new
regardless of counts. -/
theorem claim_C1 :
    (∀ (topics : List EmergingTopic) (category : String) (todayDate : Int),
      ∀ t ∈ buildTrendTopics topics category todayDate,
        t.trendState = trendStateSpec t.todayCount t.yesterdayCount t.isNewToday ∧
        t.isNewToday = decide (t.firstSeen = todayDate) ∧
        (t.firstSeen = todayDate → t.trendState = TrendState.new)) ∧
    (∀ (today yesterday twoDaysAgo : Nat) (isNewToday : Bool),
      trendState today yesterday twoDaysAgo isNewToday =
        trendStateSpec today yesterday isNewToday) ∧
    trendState 5 5 0 false = TrendState.steady ∧
    (∀ twoDaysAgo : Nat, trendState 3 7 twoDaysAgo false = TrendState.fading) ∧
    (∀ today yesterday twoDaysAgo : Nat,
      trendState today yesterday twoDaysAgo true = TrendState.new) := by
  refine ⟨?_, trendState_eq_spec, by decide, fun _ => by simp [trendState], fun _ _ _ => rfl⟩
  intro topics category todayDate t ht
  obtain ⟨⟨_, _, _, _, hnew, hstate⟩, _⟩ := buildTrendTopics_inv topics category todayDate t ht
  refine ⟨hstate.trans (trendState_eq_spec _ _ _ _), hnew, ?_⟩
  intro hfs
  rw [hstate, trendState_eq_spec, hnew, trendStateSpec]
  simp [hfs]

unseal Rat.inv Rat.mul Rat.add Rat.sub Nat.gcd List.merge List.mergeSort in
theorem claim_C1_witness :
    ((buildTrendTopics rankDemoRows "c" 10)[0]!).trendState =
      trendStateSpec ((buildTrendTopics rankDemoRows "c" 10)[0]!).todayCount
        ((buildTrendTopics rankDemoRows "c" 10)[0]!).yesterdayCount
        ((buildTrendTopics rankDemoRows "c" 10)[0]!).isNewToday :=
  (claim_C1.1 rankDemoRows "c" 10 _ (by decide)).1

unseal Rat.inv Rat.mul Rat.add Rat.sub Nat.gcd List.merge List.mergeSort in
/-- Claim C2: for every `TrendTopic` returned by `buildTrendTopics`
(including topics re-derived by `recomputeDerivedFields` after a merge),
the three counts are the series values at offsets 0, -1 and -2 days from
the reference date and
`score = todayCount + 0.5 * yesterdayCount - 0.5 * twoDaysAgoCount`;
the series today 10 / yesterday 4 / two-days-ago 6 scores 9, and the score
can be negative. -/
theorem claim_C2 :
    (∀ (topics : List EmergingTopic) (category : String) (todayDate : Int),
      ∀ t ∈ buildTrendTopics topics category todayDate,
        t.todayCount = seriesAt t.data todayDate ∧
        t.yesterdayCount = seriesAt t.data (getDateOffset todayDate (-1)) ∧
        t.twoDaysAgoCount = seriesAt t.data (getDateOffset todayDate (-2)) ∧
        t.score = (t.todayCount : ℚ) + (1/2 : ℚ) * (t.yesterdayCount : ℚ) -
          (1/2 : ℚ) * (t.twoDaysAgoCount : ℚ)) ∧
    (∀ (t : TrendTopic) (todayDate : Int),
      (recomputeDerivedFields t todayDate).score =
        ((recomputeDerivedFields t todayDate).todayCount : ℚ) +
          (1/2 : ℚ) * ((recomputeDerivedFields t todayDate).yesterdayCount : ℚ) -
          (1/2 : ℚ) * ((recomputeDerivedFields t todayDate).twoDaysAgoCount : ℚ)) ∧
    (recomputeDerivedFields scoreDemoTopic 10).score = 9 ∧
    (recomputeDerivedFields negScoreDemoTopic 10).score < 0 := by
  refine ⟨?_, ?_, ?_, ?_⟩
  · intro topics category todayDate t ht
    obtain ⟨⟨h1, h2, h3, h4, _, _⟩, _⟩ := buildTrendTopics_inv topics category todayDate t ht
    exact ⟨h1, h2, h3, h4⟩
  · intro t todayDate
    obtain ⟨_, _, _, h4, _, _⟩ := derivedConsistent_recompute t todayDate
    exact h4
  · decide
  · decide

unseal Rat.inv Rat.mul Rat.add Rat.sub Nat.gcd List.merge List.mergeSort in
theorem claim_C2_witness :
    ((buildTrendTopics rankDemoRows "c" 10)[0]!).score =
      (((buildTrendTopics rankDemoRows "c" 10)[0]!).todayCount : ℚ) +
        (1/2 : ℚ) * (((buildTrendTopics rankDemoRows "c" 10)[0]!).yesterdayCount : ℚ) -
        (1/2 : ℚ) * (((buildTrendTopics rankDemoRows "c" 10)[0]!).twoDaysAgoCount : ℚ) :=
  (claim_C2.1 rankDemoRows "c" 10 _ (by decide)).2.2.2

/-- Claim C5: every `TrendTopic` returned by `buildTrendTopics` (the
cross-day merge included) has a data series with exactly one entry per
distinct date occurring anywhere in the input list, sorted ascending —
dates on which the topic had no posts included (their entry carries 0
posts, which is what makes the series dense). -/
theorem claim_C5 :
    ∀ (topics : List EmergingTopic) (category : String) (todayDate : Int),
      ∀ t ∈ buildTrendTopics topics category todayDate,
        t.data.map (fun x => x.date) = allDatesOf topics ∧
        (allDatesOf topics).Pairwise (· < ·) ∧
        (∀ d : Int, d ∈ allDatesOf topics ↔ d ∈ topics.map (fun x => x.date)) := by
  intro topics category todayDate t ht
  exact ⟨(buildTrendTopics_inv topics category todayDate t ht).2, sorted_allDatesOf topics,
    mem_allDatesOf topics⟩

unseal Rat.inv Rat.mul Rat.add Rat.sub Nat.gcd List.merge List.mergeSort in
theorem claim_C5_witness :
    ((buildTrendTopics rankDemoRows "c" 10)[0]!).data.map (fun x => x.date) =
      allDatesOf rankDemoRows :=
  (claim_C5 rankDemoRows "c" 10 _ (by decide)).1

theorem intersectionSize_le_left (a b : List String) : intersectionSize a b ≤ a.length :=
  List.length_filter_le _ _

theorem intersectionSize_nil_left (b : List String) : intersectionSize [] b = 0 :=
  rfl

theorem intersectionSize_nil_right (a : List String) : intersectionSize a [] = 0 := by
  unfold intersectionSize
  induction a with
  | nil => rfl
  | cons x t ih => simp [List.filter_cons]

theorem ite_true_left (c d : Bool) : (if c = true then true else d) = (c || d) := by
  cases c <;> simp

/-- Claim C6: `isSimilarTopic` returns true exactly when, writing `i` for
the token intersection size, `u = |A| + |B| - i`, `jaccard = i / u` and
`containment = i / min(|A|, |B|)`, we have `i ≥ 3` and (`jaccard ≥ 0.28`
or `containment ≥ 0.55`), or `i ≥ 2` and `containment ≥ 0.72`; and when
either token set is empty the result is false. -/
theorem claim_C6 :
    (∀ a b : List String,
      isSimilarTopic a b = true ↔
        ((3 ≤ intersectionSize a b ∧
            ((28/100 : ℚ) ≤ (intersectionSize a b : ℚ) /
                ((a.length + b.length - intersectionSize a b : Nat) : ℚ) ∨
             (55/100 : ℚ) ≤ (intersectionSize a b : ℚ) /
                ((min a.length b.length : Nat) : ℚ))) ∨
         (2 ≤ intersectionSize a b ∧
           (72/100 : ℚ) ≤ (intersectionSize a b : ℚ) /
              ((min a.length b.length : Nat) : ℚ)))) ∧
    (∀ b : List String, isSimilarTopic [] b = false) ∧
    (∀ a : List String, isSimilarTopic a [] = false) := by
  have hempty : ∀ a b : List String, a.length = 0 ∨ b.length = 0 → isSimilarTopic a b = false := by
    intro a b hab
    unfold isSimilarTopic
    rw [if_pos]
    rcases hab with h | h <;> simp [h]
  refine ⟨?_, fun b => hempty [] b (Or.inl rfl), fun a => hempty a [] (Or.inr rfl)⟩
  intro a b
  by_cases hab : a.length = 0 ∨ b.length = 0
  · rw [hempty a b hab]
    have hi : intersectionSize a b = 0 := by
      rcases hab with h | h
      · rw [List.length_eq_zero.mp h]
        rfl
      · rw [List.length_eq_zero.mp h]
        exact intersectionSize_nil_right a
    rw [hi]
    simp
  · push_neg at hab
    obtain ⟨ha, hb⟩ := hab
    have hu : ¬ (a.length + b.length - intersectionSize a b = 0) := by
      have := intersectionSize_le_left a b
      omega
    unfold isSimilarTopic
    rw [if_neg (by simp [ha, hb])]
    dsimp only
    rw [if_neg hu]
    rw [ite_true_left]
    simp only [Bool.or_eq_true, Bool.and_eq_true, decide_eq_true_eq]

theorem ent_ne_sentinel (s : String) :
    ("ent:" ++ s) ≠ "story:anthropic-us-government-conflict" := by
  intro h
  have hd : ("ent:" ++ s).data = "story:anthropic-us-government-conflict".data :=
    congrArg String.data h
  have hcons : ("ent:" ++ s).data = 'e' :: ("nt:" ++ s).data := rfl
  rw [hcons,
    show "story:anthropic-us-government-conflict".data =
      's' :: "tory:anthropic-us-government-conflict".data from rfl] at hd
  injection hd with h1 _
  exact absurd h1 (by decide)

unseal List.merge List.mergeSort in
/-- Claim C7 counterexample: a text containing the words anthropic, trump
and banned does not yield the hard-coded sentinel story key — `banned`
stems to `bann`, while the pattern checks for the token `ban` — so the
extractor falls through to the entity/event key. -/
theorem claim_C7_counterexample :
    deriveStoryKey "anthropic trump banned" "" "" = some "ent:anthropic+trump|evt:ban" ∧
    deriveStoryKey "anthropic trump banned" "" "" ≠
      some "story:anthropic-us-government-conflict" := by
  constructor <;> decide

theorem contains_iff_mem {α : Type} [BEq α] [LawfulBEq α] (l : List α) (a : α) :
    l.contains a = true ↔ a ∈ l :=
  List.elem_iff

set_option maxHeartbeats 1000000 in
/-- Claim C7 amended: `deriveStoryKey` returns the fixed sentinel key
exactly when the token set of title+summary+keyword contains `anthropic`
and either (`trump` and `pentagon`) or ((`trump` or `pentagon`) and one of
the tokens `military`, `classifi` (the stem of classified), `designat`
(the stem of designated), `ban` — the token of the literal word ban, not
of banned, which stems to `bann`); in particular a text containing the
words anthropic, trump and ban yields the sentinel key. -/
theorem claim_C7_amended :
    (∀ title summary keyword : String,
      deriveStoryKey title summary keyword = some "story:anthropic-us-government-conflict" ↔
        ("anthropic" ∈ similarityTokenSet (title ++ " " ++ summary ++ " " ++ keyword) ∧
          (("trump" ∈ similarityTokenSet (title ++ " " ++ summary ++ " " ++ keyword) ∧
            "pentagon" ∈ similarityTokenSet (title ++ " " ++ summary ++ " " ++ keyword)) ∨
           (("trump" ∈ similarityTokenSet (title ++ " " ++ summary ++ " " ++ keyword) ∨
             "pentagon" ∈ similarityTokenSet (title ++ " " ++ summary ++ " " ++ keyword)) ∧
            ("military" ∈ similarityTokenSet (title ++ " " ++ summary ++ " " ++ keyword) ∨
             "classifi" ∈ similarityTokenSet (title ++ " " ++ summary ++ " " ++ keyword) ∨
             "designat" ∈ similarityTokenSet (title ++ " " ++ summary ++ " " ++ keyword) ∨
             "ban" ∈ similarityTokenSet (title ++ " " ++ summary ++ " " ++ keyword)))))) ∧
    deriveStoryKey "anthropic trump ban" "" "" =
      some "story:anthropic-us-government-conflict" := by
  refine ⟨?_, by decide⟩
  intro title summary keyword
  unfold deriveStoryKey
  dsimp only
  set tk := similarityTokenSet (title ++ " " ++ summary ++ " " ++ keyword) with htk
  rcases Bool.eq_false_or_eq_true
    (tk.contains "anthropic" &&
      ((tk.contains "trump" && tk.contains "pentagon") ||
        ((tk.contains "trump" || tk.contains "pentagon") &&
          (tk.contains "military" || tk.contains "classifi" ||
            tk.contains "designat" || tk.contains "ban"))))
    with hc | hc
  · rw [hc, if_pos rfl]
    simp only [Bool.and_eq_true, Bool.or_eq_true, contains_iff_mem, or_assoc] at hc
    simp only [true_iff]
    exact hc
  · rw [hc, if_neg (by simp)]
    constructor
    · intro habs
      split at habs
      · rw [Option.some.injEq] at habs
        exact absurd habs (ent_ne_sentinel _)
      · split at habs
        · rw [Option.some.injEq] at habs
          exact absurd habs (ent_ne_sentinel _)
        · exact absurd habs (by simp)
    · intro hrhs
      exfalso
      rw [Bool.eq_false_iff] at hc
      apply hc
      simp only [Bool.and_eq_true, Bool.or_eq_true, contains_iff_mem, or_assoc]
      exact hrhs

/-- Claim C9 counterexample: a record supplying the non-null stored key
`""` (a non-null `topic_key` string) does not get it back verbatim —
`getTopicKey` recomputes the key from category, keyword and normalized
title, because the stored key is empty after trimming. -/
theorem claim_C9_counterexample :
    getTopicKey ⟨10, "reddit", "kw", some "", "Title", "", 1, none, "cat"⟩ = "cat::kw::title" ∧
    getTopicKey ⟨10, "reddit", "kw", some "", "Title", "", 1, none, "cat"⟩ ≠ "" := by
  constructor <;> decide

/-- Claim C9 amended: for every input record that supplies an
already-assigned stable key — a non-null `topic_key` string whose trimmed
length is positive — `getTopicKey` returns that stored key verbatim
instead of recomputing it. -/
theorem claim_C9_amended (topic : EmergingTopic) (k : String)
    (hk : topic.topic_key = some k) (hlen : 0 < strLength (strTrim k)) :
    getTopicKey topic = k := by
  unfold getTopicKey
  rw [hk]
  have hne : k ≠ "" := by
    intro h
    subst h
    exact absurd hlen (by decide)
  dsimp only
  rw [if_pos]
  simp only [Bool.and_eq_true, decide_eq_true_eq]
  exact ⟨hne, hlen⟩

theorem claim_C9_amended_witness :
    getTopicKey ⟨10, "reddit", "kw", some "stored key", "Title", "", 1, none, "cat"⟩ =
      "stored key" :=
  claim_C9_amended _ "stored key" rfl (by decide)

theorem modify_eq_set {α : Type} (f : α → α) (i : Nat) (l : List α) (h : i < l.length) :
    List.modify f i l = l.set i (f (l.get ⟨i, h⟩)) := by
  apply List.ext_getElem
  · simp [List.length_modify]
  · intro n h₁ h₂
    rw [List.getElem_modify, List.getElem_set]
    split
    · next hn => subst hn; rfl
    · rfl

/-- The claim's matching rule for the cross-day pass, stated as a
proposition: (a) shared story key; (b) signature overlap at least 3;
(c) signature overlap at least 2 and token-set similarity; (d) token-set
similarity alone; (e) whole-text similarity. -/
def trendMatchSpec (cluster : TrendCluster) (candidateStoryKey : Option String)
    (signature tokens : List String) (matchText : String) : Prop :=
  (∃ k, candidateStoryKey = some k ∧ k ∈ cluster.storyKeys) ∨
  3 ≤ signatureOverlap cluster.signature signature ∨
  (2 ≤ signatureOverlap cluster.signature signature ∧
    isSimilarTopic cluster.tokenSet tokens = true) ∨
  isSimilarTopic cluster.tokenSet tokens = true ∨
  isSimilarTopicText cluster.matchText matchText = true

/-- The claim's matching rule for the same-day pass (the same five rules
over a `MergedTopic` cluster). -/
def sameDayMatchSpec (cluster : MergedTopic) (rowStoryKey : Option String)
    (signature tokens : List String) (matchText : String) : Prop :=
  (∃ k, rowStoryKey = some k ∧ k ∈ cluster.storyKeys) ∨
  3 ≤ signatureOverlap cluster.signature signature ∨
  (2 ≤ signatureOverlap cluster.signature signature ∧
    isSimilarTopic cluster.tokenSet tokens = true) ∨
  isSimilarTopic cluster.tokenSet tokens = true ∨
  isSimilarTopicText cluster.matchText matchText = true

theorem trendClusterMatches_iff (cluster : TrendCluster) (sk : Option String)
    (signature tokens : List String) (matchText : String) :
    trendClusterMatches cluster sk signature tokens matchText = true ↔
      trendMatchSpec cluster sk signature tokens matchText := by
  unfold trendClusterMatches trendMatchSpec
  cases sk with
  | none => simp [Bool.or_eq_true, Bool.and_eq_true, decide_eq_true_eq, or_assoc]
  | some k =>
    simp only [Bool.or_eq_true, Bool.and_eq_true, decide_eq_true_eq, contains_iff_mem,
      Option.some.injEq, or_assoc]
    constructor
    · rintro (h | h)
      · exact Or.inl ⟨k, rfl, h⟩
      · exact Or.inr h
    · rintro (⟨k2, hk2, hmem⟩ | h)
      · cases hk2
        exact Or.inl hmem
      · exact Or.inr h

theorem mergedTopicMatches_iff (cluster : MergedTopic) (sk : Option String)
    (signature tokens : List String) (matchText : String) :
    mergedTopicMatches cluster sk signature tokens matchText = true ↔
      sameDayMatchSpec cluster sk signature tokens matchText := by
  unfold mergedTopicMatches sameDayMatchSpec
  cases sk with
  | none => simp [Bool.or_eq_true, Bool.and_eq_true, decide_eq_true_eq, or_assoc]
  | some k =>
    simp only [Bool.or_eq_true, Bool.and_eq_true, decide_eq_true_eq, contains_iff_mem,
      Option.some.injEq, or_assoc]
    constructor
    · rintro (h | h)
      · exact Or.inl ⟨k, rfl, h⟩
      · exact Or.inr h
    · rintro (⟨k2, hk2, hmem⟩ | h)
      · cases hk2
        exact Or.inl hmem
      · exact Or.inr h

/-- Claim C4: in both clustering passes, each item (processed in input
order: both passes are left folds of their step function) is merged into
the first existing cluster — scanned in creation order, since new clusters
are appended at the end — satisfying one of the five rules (shared story
key; signature overlap at least 3; overlap at least 2 plus token
similarity; token similarity; whole-text similarity), and opens a new
singleton cluster when no cluster matches. -/
theorem claim_C4 :
    (∀ (docFreq : List (String × Nat)) (todayDate : Int) (clusters : List TrendCluster)
        (candidate : TrendTopic),
      ((∀ cluster ∈ clusters,
          ¬ trendMatchSpec cluster (deriveStoryKey candidate.title "" candidate.keyword)
            (signatureFromTokens (similarityTokenSet candidate.title) docFreq)
            (similarityTokenSet candidate.title) candidate.title) →
        trendMergeStep docFreq todayDate clusters candidate =
          clusters ++
            [{ tokenSet := similarityTokenSet candidate.title
               signature := signatureFromTokens (similarityTokenSet candidate.title) docFreq
               matchText := candidate.title
               storyKeys :=
                 match deriveStoryKey candidate.title "" candidate.keyword with
                 | some k => [k]
                 | none => []
               topic := candidate }]) ∧
      (∀ (i : Nat) (hi : i < clusters.length),
        trendMatchSpec (clusters.get ⟨i, hi⟩)
          (deriveStoryKey candidate.title "" candidate.keyword)
          (signatureFromTokens (similarityTokenSet candidate.title) docFreq)
          (similarityTokenSet candidate.title) candidate.title →
        (∀ (j : Nat) (hj : j < i),
          ¬ trendMatchSpec (clusters.get ⟨j, lt_trans hj hi⟩)
            (deriveStoryKey candidate.title "" candidate.keyword)
            (signatureFromTokens (similarityTokenSet candidate.title) docFreq)
            (similarityTokenSet candidate.title) candidate.title) →
        trendMergeStep docFreq todayDate clusters candidate =
          clusters.set i
            (mergeTrendCandidate (clusters.get ⟨i, hi⟩) candidate
              (deriveStoryKey candidate.title "" candidate.keyword)
              (similarityTokenSet candidate.title)
              (signatureFromTokens (similarityTokenSet candidate.title) docFreq)
              candidate.title todayDate))) ∧
    (∀ (topics : List TrendTopic) (todayDate : Int),
      mergeNearDuplicateTrendTopics topics todayDate =
        ((topics.foldl (trendMergeStep (buildDocFreqForTrend topics) todayDate) []).map
          (fun cluster => cluster.topic))) ∧
    (∀ (category : String) (docFreq : List (String × Nat)) (clusters : List MergedTopic)
        (row : EmergingTopic),
      ((∀ cluster ∈ clusters,
          ¬ sameDayMatchSpec cluster (deriveStoryKey row.topic_title row.summary row.keyword)
            (buildSignatureFromTokenSet
              (similarityTokenSet (row.topic_title ++ " " ++ strTake row.summary 220)) docFreq)
            (similarityTokenSet (row.topic_title ++ " " ++ strTake row.summary 220))
            (row.topic_title ++ " " ++ strTake row.summary 220)) →
        sameDayStep category docFreq clusters row =
          clusters ++
            [{ topicTitle := row.topic_title
               summary := row.summary
               category := category
               postCount := row.post_count
               links := (row.sample_urls.getD []).map (fun url => TopicLink.mk url row.platform)
               platforms := [platformBadge row.platform]
               tokenSet := similarityTokenSet (row.topic_title ++ " " ++ strTake row.summary 220)
               signature := buildSignatureFromTokenSet
                 (similarityTokenSet (row.topic_title ++ " " ++ strTake row.summary 220)) docFreq
               matchText := row.topic_title ++ " " ++ strTake row.summary 220
               storyKeys :=
                 match deriveStoryKey row.topic_title row.summary row.keyword with
                 | some k => [k]
                 | none => [] }]) ∧
      (∀ (i : Nat) (hi : i < clusters.length),
        sameDayMatchSpec (clusters.get ⟨i, hi⟩)
          (deriveStoryKey row.topic_title row.summary row.keyword)
          (buildSignatureFromTokenSet
            (similarityTokenSet (row.topic_title ++ " " ++ strTake row.summary 220)) docFreq)
          (similarityTokenSet (row.topic_title ++ " " ++ strTake row.summary 220))
          (row.topic_title ++ " " ++ strTake row.summary 220) →
        (∀ (j : Nat) (hj : j < i),
          ¬ sameDayMatchSpec (clusters.get ⟨j, lt_trans hj hi⟩)
            (deriveStoryKey row.topic_title row.summary row.keyword)
            (buildSignatureFromTokenSet
              (similarityTokenSet (row.topic_title ++ " " ++ strTake row.summary 220)) docFreq)
            (similarityTokenSet (row.topic_title ++ " " ++ strTake row.summary 220))
            (row.topic_title ++ " " ++ strTake row.summary 220)) →
        sameDayStep category docFreq clusters row =
          clusters.set i
            (mergeRowIntoCluster (clusters.get ⟨i, hi⟩) row
              (deriveStoryKey row.topic_title row.summary row.keyword)
              (similarityTokenSet (row.topic_title ++ " " ++ strTake row.summary 220))
              (buildSignatureFromTokenSet
                (similarityTokenSet (row.topic_title ++ " " ++ strTake row.summary 220)) docFreq)
              (row.topic_title ++ " " ++ strTake row.summary 220)
              ((row.sample_urls.getD []).map (fun url => TopicLink.mk url row.platform))
              (platformBadge row.platform)))) ∧
    (∀ (items : List EmergingTopic) (category : String),
      mergeTopics items category =
        ((sameDayRows items category).foldl
            (sameDayStep category (buildTokenDocFreq (sameDayRows items category))) []).mergeSort
          (fun a b => decide (b.postCount ≤ a.postCount))) := by
  refine ⟨?_, fun topics todayDate => rfl, ?_, fun items category => rfl⟩
  · intro docFreq todayDate clusters candidate
    constructor
    · intro hnone
      have hfind : clusters.findIdx?
          (fun cluster => trendClusterMatches cluster
            (deriveStoryKey candidate.title "" candidate.keyword)
            (signatureFromTokens (similarityTokenSet candidate.title) docFreq)
            (similarityTokenSet candidate.title) candidate.title) = none := by
        rw [List.findIdx?_eq_none_iff]
        intro cluster hmem
        rw [Bool.eq_false_iff]
        intro habs
        exact hnone cluster hmem ((trendClusterMatches_iff _ _ _ _ _).mp habs)
      unfold trendMergeStep
      dsimp only
      rw [hfind]
    · intro i hi hspec hmin
      have hfind : clusters.findIdx?
          (fun cluster => trendClusterMatches cluster
            (deriveStoryKey candidate.title "" candidate.keyword)
            (signatureFromTokens (similarityTokenSet candidate.title) docFreq)
            (similarityTokenSet candidate.title) candidate.title) = some i := by
        rw [List.findIdx?_eq_some_iff_findIdx_eq]
        refine ⟨hi, (List.findIdx_eq hi).mpr ⟨?_, ?_⟩⟩
        · exact (trendClusterMatches_iff _ _ _ _ _).mpr hspec
        · intro j hji
          rw [Bool.eq_false_iff]
          intro habs
          exact hmin j hji ((trendClusterMatches_iff _ _ _ _ _).mp habs)
      unfold trendMergeStep
      dsimp only
      rw [hfind]
      exact modify_eq_set _ i clusters hi
  · intro category docFreq clusters row
    constructor
    · intro hnone
      have hfind : clusters.findIdx?
          (fun cluster => mergedTopicMatches cluster
            (deriveStoryKey row.topic_title row.summary row.keyword)
            (buildSignatureFromTokenSet
              (similarityTokenSet (row.topic_title ++ " " ++ strTake row.summary 220)) docFreq)
            (similarityTokenSet (row.topic_title ++ " " ++ strTake row.summary 220))
            (row.topic_title ++ " " ++ strTake row.summary 220)) = none := by
        rw [List.findIdx?_eq_none_iff]
        intro cluster hmem
        rw [Bool.eq_false_iff]
        intro habs
        exact hnone cluster hmem ((mergedTopicMatches_iff _ _ _ _ _).mp habs)
      unfold sameDayStep
      dsimp only
      rw [hfind]
    · intro i hi hspec hmin
      have hfind : clusters.findIdx?
          (fun cluster => mergedTopicMatches cluster
            (deriveStoryKey row.topic_title row.summary row.keyword)
            (buildSignatureFromTokenSet
              (similarityTokenSet (row.topic_title ++ " " ++ strTake row.summary 220)) docFreq)
            (similarityTokenSet (row.topic_title ++ " " ++ strTake row.summary 220))
            (row.topic_title ++ " " ++ strTake row.summary 220)) = some i := by
        rw [List.findIdx?_eq_some_iff_findIdx_eq]
        refine ⟨hi, (List.findIdx_eq hi).mpr ⟨?_, ?_⟩⟩
        · exact (mergedTopicMatches_iff _ _ _ _ _).mpr hspec
        · intro j hji
          rw [Bool.eq_false_iff]
          intro habs
          exact hmin j hji ((mergedTopicMatches_iff _ _ _ _ _).mp habs)
      unfold sameDayStep
      dsimp only
      rw [hfind]
      exact modify_eq_set _ i clusters hi

theorem claim_C4_witness :
    trendMergeStep [] 0 [] (sigDemoTopic "quantum widget frobnicator" "k1") =
      [{ tokenSet := similarityTokenSet (sigDemoTopic "quantum widget frobnicator" "k1").title
         signature := signatureFromTokens
           (similarityTokenSet (sigDemoTopic "quantum widget frobnicator" "k1").title) []
         matchText := (sigDemoTopic "quantum widget frobnicator" "k1").title
         storyKeys :=
           match deriveStoryKey (sigDemoTopic "quantum widget frobnicator" "k1").title ""
               (sigDemoTopic "quantum widget frobnicator" "k1").keyword with
           | some k => [k]
           | none => []
         topic := sigDemoTopic "quantum widget frobnicator" "k1" }] :=
  (claim_C4.1 [] 0 [] (sigDemoTopic "quantum widget frobnicator" "k1")).1
    (fun cluster h => absurd h (List.not_mem_nil cluster))

/-- Provenance of a same-day cluster: a nonempty subsequence of the
processed rows (its members) determines its links — the plain
concatenation of each member's sample URLs tagged with that member's
platform, with no URL-level deduplication — and its signature, the union
of the members' per-item signatures. -/
def sameDayClusterFrom (docFreq : List (String × Nat))
    (rows : List EmergingTopic) (cluster : MergedTopic) : Prop :=
  ∃ members : List EmergingTopic, members ≠ [] ∧ members.Sublist rows ∧
    cluster.links = members.flatMap
      (fun r => (r.sample_urls.getD []).map (fun url => TopicLink.mk url r.platform)) ∧
    (∀ tok : String, tok ∈ cluster.signature ↔
      ∃ r ∈ members, tok ∈ buildSignatureFromTokenSet
        (similarityTokenSet (r.topic_title ++ " " ++ strTake r.summary 220)) docFreq)

theorem sameDayClusters_from (category : String) (docFreq : List (String × Nat)) :
    ∀ (rows prior : List EmergingTopic) (acc : List MergedTopic),
      (∀ cl ∈ acc, sameDayClusterFrom docFreq prior cl) →
      ∀ cl ∈ rows.foldl (sameDayStep category docFreq) acc,
        sameDayClusterFrom docFreq (prior ++ rows) cl := by
  intro rows
  induction rows with
  | nil =>
    intro prior acc hacc
    simpa using hacc
  | cons r rest ih =>
    intro prior acc hacc
    have hstep : ∀ cl ∈ sameDayStep category docFreq acc r,
        sameDayClusterFrom docFreq (prior ++ [r]) cl := by
      intro cl hcl
      unfold sameDayStep at hcl
      dsimp only at hcl
      split at hcl
      · rcases List.mem_append.mp hcl with h | h
        · obtain ⟨members, hne, hsub, hlinks, hsig⟩ := hacc cl h
          exact ⟨members, hne, hsub.trans (List.sublist_append_left prior [r]), hlinks, hsig⟩
        · rw [List.mem_singleton] at h
          subst h
          refine ⟨[r], by simp, List.sublist_append_right prior [r], by simp, ?_⟩
          intro tok
          simp
      · rcases mem_modify _ _ _ cl hcl with h | ⟨c0, hc0, rfl⟩
        · obtain ⟨members, hne, hsub, hlinks, hsig⟩ := hacc cl h
          exact ⟨members, hne, hsub.trans (List.sublist_append_left prior [r]), hlinks, hsig⟩
        · obtain ⟨members, hne, hsub, hlinks, hsig⟩ := hacc c0 hc0
          refine ⟨members ++ [r], by simp, hsub.append (List.Sublist.refl [r]), ?_, ?_⟩
          · rw [List.flatMap_append]
            unfold mergeRowIntoCluster
            dsimp only
            rw [hlinks]
            simp
          · intro tok
            have : (mergeRowIntoCluster c0 r
                (deriveStoryKey r.topic_title r.summary r.keyword)
                (similarityTokenSet (r.topic_title ++ " " ++ strTake r.summary 220))
                (buildSignatureFromTokenSet
                  (similarityTokenSet (r.topic_title ++ " " ++ strTake r.summary 220)) docFreq)
                (r.topic_title ++ " " ++ strTake r.summary 220)
                ((r.sample_urls.getD []).map (fun url => TopicLink.mk url r.platform))
                (platformBadge r.platform)).signature =
              (buildSignatureFromTokenSet
                (similarityTokenSet (r.topic_title ++ " " ++ strTake r.summary 220))
                docFreq).foldl jsAdd c0.signature := rfl
            rw [this, mem_foldl_jsAdd, hsig tok]
            constructor
            · rintro (⟨r2, hr2, htok⟩ | htok)
              · exact ⟨r2, List.mem_append.mpr (Or.inl hr2), htok⟩
              · exact ⟨r, List.mem_append.mpr (Or.inr (List.mem_singleton.mpr rfl)), htok⟩
            · rintro ⟨r2, hr2, htok⟩
              rcases List.mem_append.mp hr2 with h2 | h2
              · exact Or.inl ⟨r2, h2, htok⟩
              · rw [List.mem_singleton] at h2
                subst h2
                exact Or.inr htok
    have := ih (prior ++ [r]) (sameDayStep category docFreq acc r) hstep
    simpa using this

/-- A cross-day cluster's signature accumulator is the union of the
per-item signatures of its members, a nonempty subsequence of the
processed topics. -/
def trendClusterFrom (docFreq : List (String × Nat))
    (topics : List TrendTopic) (cluster : TrendCluster) : Prop :=
  ∃ members : List TrendTopic, members ≠ [] ∧ members.Sublist topics ∧
    (∀ tok : String, tok ∈ cluster.signature ↔
      ∃ t ∈ members, tok ∈ signatureFromTokens (similarityTokenSet t.title) docFreq)

theorem trendClusters_from_aux (docFreq : List (String × Nat)) (todayDate : Int) :
    ∀ (topics prior : List TrendTopic) (acc : List TrendCluster),
      (∀ cl ∈ acc, trendClusterFrom docFreq prior cl) →
      ∀ cl ∈ topics.foldl (trendMergeStep docFreq todayDate) acc,
        trendClusterFrom docFreq (prior ++ topics) cl := by
  intro topics
  induction topics with
  | nil =>
    intro prior acc hacc
    simpa using hacc
  | cons c rest ih =>
    intro prior acc hacc
    have hstep : ∀ cl ∈ trendMergeStep docFreq todayDate acc c,
        trendClusterFrom docFreq (prior ++ [c]) cl := by
      intro cl hcl
      unfold trendMergeStep at hcl
      dsimp only at hcl
      split at hcl
      · rcases List.mem_append.mp hcl with h | h
        · obtain ⟨members, hne, hsub, hsig⟩ := hacc cl h
          exact ⟨members, hne, hsub.trans (List.sublist_append_left prior [c]), hsig⟩
        · rw [List.mem_singleton] at h
          subst h
          refine ⟨[c], by simp, List.sublist_append_right prior [c], ?_⟩
          intro tok
          simp
      · rcases mem_modify _ _ _ cl hcl with h | ⟨c0, hc0, rfl⟩
        · obtain ⟨members, hne, hsub, hsig⟩ := hacc cl h
          exact ⟨members, hne, hsub.trans (List.sublist_append_left prior [c]), hsig⟩
        · obtain ⟨members, hne, hsub, hsig⟩ := hacc c0 hc0
          refine ⟨members ++ [c], by simp, hsub.append (List.Sublist.refl [c]), ?_⟩
          intro tok
          have : (mergeTrendCandidate c0 c
              (deriveStoryKey c.title "" c.keyword)
              (similarityTokenSet c.title)
              (signatureFromTokens (similarityTokenSet c.title) docFreq)
              c.title todayDate).signature =
            (signatureFromTokens (similarityTokenSet c.title) docFreq).foldl jsAdd
              c0.signature := rfl
          rw [this, mem_foldl_jsAdd, hsig tok]
          constructor
          · rintro (⟨t2, ht2, htok⟩ | htok)
            · exact ⟨t2, List.mem_append.mpr (Or.inl ht2), htok⟩
            · exact ⟨c, List.mem_append.mpr (Or.inr (List.mem_singleton.mpr rfl)), htok⟩
          · rintro ⟨t2, ht2, htok⟩
            rcases List.mem_append.mp ht2 with h2 | h2
            · exact Or.inl ⟨t2, h2, htok⟩
            · rw [List.mem_singleton] at h2
              subst h2
              exact Or.inr htok
    have := ih (prior ++ [c]) (trendMergeStep docFreq todayDate acc c) hstep
    simpa using this

instance : Inhabited MergedTopic :=
  ⟨{ topicTitle := ""
     summary := ""
     category := ""
     postCount := 0
     links := []
     platforms := []
     tokenSet := []
     signature := []
     matchText := ""
     storyKeys := [] }⟩

instance : Inhabited TrendCluster :=
  ⟨{ tokenSet := []
     signature := []
     matchText := ""
     storyKeys := []
     topic := default }⟩

unseal Rat.inv Rat.mul Rat.add Rat.sub Nat.gcd List.merge List.mergeSort in
/-- Claim C8 counterexample: two same-day rows carrying the same sample
URL from different platforms merge into one cluster whose links list
contains that URL twice — `mergeTopics` does not deduplicate links by
URL. -/
theorem claim_C8_counterexample :
    ((mergeTopics dupLinkRows "ecosystem").map (fun m => m.links.map (fun l => l.url))) =
      [["http://example.com/a", "http://example.com/a"]] ∧
    ((mergeTopics dupLinkRows "ecosystem").map
      (fun m => decide (m.links.map (fun l => l.url)).Nodup)) = [false] := by
  constructor <;> decide

/-- Claim C8 amended: for every `MergedTopic` returned by the same-day
merge, the links list is the concatenation, in merge order, of the member
records' sample URLs, each link carrying the platform of the record it
came from; URLs are not deduplicated here (the thread-card renderer
deduplicates by URL downstream). -/
theorem claim_C8_amended :
    ∀ (items : List EmergingTopic) (category : String),
      ∀ m ∈ mergeTopics items category,
        ∃ members : List EmergingTopic, members ≠ [] ∧
          members.Sublist (sameDayRows items category) ∧
          m.links = members.flatMap
            (fun r => (r.sample_urls.getD []).map (fun url => TopicLink.mk url r.platform)) := by
  intro items category m hm
  unfold mergeTopics at hm
  rw [(List.mergeSort_perm _ _).mem_iff] at hm
  obtain ⟨members, hne, hsub, hlinks, _⟩ :=
    sameDayClusters_from category (buildTokenDocFreq (sameDayRows items category))
      (sameDayRows items category) [] [] (by simp) m (by simpa [sameDayClusters] using hm)
  exact ⟨members, hne, by simpa using hsub, hlinks⟩

unseal Rat.inv Rat.mul Rat.add Rat.sub Nat.gcd List.merge List.mergeSort in
theorem claim_C8_amended_witness :
    ((mergeTopics dupLinkRows "ecosystem")[0]!) ∈ mergeTopics dupLinkRows "ecosystem" ∧
    ∃ members : List EmergingTopic, members ≠ [] ∧
      members.Sublist (sameDayRows dupLinkRows "ecosystem") ∧
      ((mergeTopics dupLinkRows "ecosystem")[0]!).links = members.flatMap
        (fun r => (r.sample_urls.getD []).map (fun url => TopicLink.mk url r.platform)) :=
  ⟨by decide, claim_C8_amended dupLinkRows "ecosystem" _ (by decide)⟩

unseal Rat.inv Rat.mul Rat.add Rat.sub Nat.gcd List.merge List.mergeSort in
theorem sigGrowthDemo :
    ((trendClusters sigDemoTopics 10).map (fun cl => cl.signature.length)) = [15] := by
  decide

/-- Claim C10: each per-item signature has at most 8 tokens, while a
cluster's signature accumulator — in both passes — is exactly the union of
its merged members' per-item signatures, never re-truncated, so it can
grow beyond 8 tokens (the matching disjunction reads
`cluster.signature`, i.e. runs against the grown set); concretely, two
topics merged through the story-key rule leave a 15-token cluster
signature. -/
theorem claim_C10 :
    (∀ (tokens : List String) (docFreq : List (String × Nat)),
      (signatureFromTokens tokens docFreq).length ≤ 8) ∧
    (∀ (topics : List TrendTopic) (todayDate : Int),
      ∀ cl ∈ trendClusters topics todayDate,
        ∃ members : List TrendTopic, members ≠ [] ∧ members.Sublist topics ∧
          (∀ tok : String, tok ∈ cl.signature ↔
            ∃ t ∈ members, tok ∈ signatureFromTokens (similarityTokenSet t.title)
              (buildDocFreqForTrend topics))) ∧
    (∀ (items : List EmergingTopic) (category : String),
      ∀ cl ∈ sameDayClusters items category,
        ∃ members : List EmergingTopic, members ≠ [] ∧
          members.Sublist (sameDayRows items category) ∧
          (∀ tok : String, tok ∈ cl.signature ↔
            ∃ r ∈ members, tok ∈ buildSignatureFromTokenSet
              (similarityTokenSet (r.topic_title ++ " " ++ strTake r.summary 220))
              (buildTokenDocFreq (sameDayRows items category)))) ∧
    ((trendClusters sigDemoTopics 10).map (fun cl => cl.signature.length)) = [15] := by
  refine ⟨?_, ?_, ?_, sigGrowthDemo⟩
  · intro tokens docFreq
    unfold signatureFromTokens
    rw [List.length_map, List.length_take]
    exact min_le_left _ _
  · intro topics todayDate cl hcl
    obtain ⟨members, hne, hsub, hsig⟩ :=
      trendClusters_from_aux (buildDocFreqForTrend topics) todayDate topics [] [] (by simp) cl
        (by simpa [trendClusters] using hcl)
    exact ⟨members, hne, by simpa using hsub, hsig⟩
  · intro items category cl hcl
    obtain ⟨members, hne, hsub, _, hsig⟩ :=
      sameDayClusters_from category (buildTokenDocFreq (sameDayRows items category))
        (sameDayRows items category) [] [] (by simp) cl
        (by simpa [sameDayClusters] using hcl)
    exact ⟨members, hne, by simpa using hsub, hsig⟩

unseal Rat.inv Rat.mul Rat.add Rat.sub Nat.gcd List.merge List.mergeSort in
theorem claim_C10_witness :
    ∃ members : List TrendTopic, members ≠ [] ∧ members.Sublist sigDemoTopics ∧
      (∀ tok : String, tok ∈ ((trendClusters sigDemoTopics 10)[0]!).signature ↔
        ∃ t ∈ members, tok ∈ signatureFromTokens (similarityTokenSet t.title)
          (buildDocFreqForTrend sigDemoTopics)) :=
  claim_C10.2.1 sigDemoTopics 10 _ (by decide)

theorem todayLe_iff (a b : TrendTopic) :
    todayLe a b = true ↔
      (b.todayCount < a.todayCount ∨ (a.todayCount = b.todayCount ∧ b.score ≤ a.score)) := by
  simp [todayLe]

theorem yesterdayLe_iff (a b : TrendTopic) :
    yesterdayLe a b = true ↔
      (b.yesterdayCount < a.yesterdayCount ∨
        (a.yesterdayCount = b.yesterdayCount ∧ b.totalCount ≤ a.totalCount)) := by
  simp [yesterdayLe]

theorem todayLe_trans : ∀ a b c : TrendTopic,
    todayLe a b = true → todayLe b c = true → todayLe a c = true := by
  intro a b c hab hbc
  rw [todayLe_iff] at *
  rcases hab with h | ⟨he, hs⟩ <;> rcases hbc with h2 | ⟨he2, hs2⟩
  · exact Or.inl (by omega)
  · exact Or.inl (by omega)
  · exact Or.inl (by omega)
  · exact Or.inr ⟨by omega, hs2.trans hs⟩

theorem todayLe_total : ∀ a b : TrendTopic, (todayLe a b || todayLe b a) = true := by
  intro a b
  simp only [Bool.or_eq_true, todayLe_iff]
  rcases Nat.lt_trichotomy a.todayCount b.todayCount with h | h | h
  · exact Or.inr (Or.inl h)
  · rcases le_total a.score b.score with hs | hs
    · exact Or.inr (Or.inr ⟨h.symm, hs⟩)
    · exact Or.inl (Or.inr ⟨h, hs⟩)
  · exact Or.inl (Or.inl h)

theorem yesterdayLe_trans : ∀ a b c : TrendTopic,
    yesterdayLe a b = true → yesterdayLe b c = true → yesterdayLe a c = true := by
  intro a b c hab hbc
  rw [yesterdayLe_iff] at *
  rcases hab with h | ⟨he, hs⟩ <;> rcases hbc with h2 | ⟨he2, hs2⟩
  · exact Or.inl (by omega)
  · exact Or.inl (by omega)
  · exact Or.inl (by omega)
  · exact Or.inr ⟨by omega, hs2.trans hs⟩

theorem yesterdayLe_total : ∀ a b : TrendTopic, (yesterdayLe a b || yesterdayLe b a) = true := by
  intro a b
  simp only [Bool.or_eq_true, yesterdayLe_iff]
  rcases Nat.lt_trichotomy a.yesterdayCount b.yesterdayCount with h | h | h
  · exact Or.inr (Or.inl h)
  · rcases Nat.le_total a.totalCount b.totalCount with hs | hs
    · exact Or.inr (Or.inr ⟨h.symm, hs⟩)
    · exact Or.inl (Or.inr ⟨h, hs⟩)
  · exact Or.inl (Or.inl h)

/-- The sorted, filtered, indexed list one of the two rank loops of
`assignRanks` walks, for a given count projection and sort order. -/
def rankedBy (l : List TrendTopic) (cnt : TrendTopic → Nat)
    (le : TrendTopic → TrendTopic → Bool) : List (Nat × TrendTopic) :=
  (l.enum.filter (fun p => decide (0 < cnt p.2))).mergeSort (fun p q => le p.2 q.2)

/-- The rank `assignRanks` writes into the topic at position `i`. -/
def rankAtBy (l : List TrendTopic) (cnt : TrendTopic → Nat)
    (le : TrendTopic → TrendTopic → Bool) (i : Nat) : Option Nat :=
  ((rankedBy l cnt le).findIdx? (fun e => decide (e.1 = i))).map (fun idx => idx + 1)

theorem assignRanks_eq (l : List TrendTopic) :
    assignRanks l = l.enum.map (fun p =>
      { p.2 with
        todayRank := rankAtBy l (fun t => t.todayCount) todayLe p.1
        yesterdayRank := rankAtBy l (fun t => t.yesterdayCount) yesterdayLe p.1 }) :=
  rfl

theorem length_assignRanks (l : List TrendTopic) : (assignRanks l).length = l.length := by
  rw [assignRanks_eq, List.length_map, List.enum_length]

theorem assignRanks_getElem (l : List TrendTopic) (i : Nat) (hi : i < l.length) :
    (assignRanks l).get ⟨i, by rwa [length_assignRanks]⟩ =
      { l.get ⟨i, hi⟩ with
        todayRank := rankAtBy l (fun t => t.todayCount) todayLe i
        yesterdayRank := rankAtBy l (fun t => t.yesterdayCount) yesterdayLe i } := by
  have hi2 : i < l.enum.length := by rwa [List.enum_length]
  have h1 : (assignRanks l).get ⟨i, by rwa [length_assignRanks]⟩ =
      (fun p : Nat × TrendTopic =>
        { p.2 with
          todayRank := rankAtBy l (fun t => t.todayCount) todayLe p.1
          yesterdayRank := rankAtBy l (fun t => t.yesterdayCount) yesterdayLe p.1 })
        (l.enum.get ⟨i, hi2⟩) := by
    simp [assignRanks_eq, List.get_eq_getElem, List.getElem_map]
  rw [h1]
  have h2 : l.enum.get ⟨i, hi2⟩ = (i, l.get ⟨i, hi⟩) := by
    simp [List.get_eq_getElem, List.getElem_enum]
  rw [h2]

theorem rankedBy_perm (l : List TrendTopic) (cnt : TrendTopic → Nat)
    (le : TrendTopic → TrendTopic → Bool) :
    (rankedBy l cnt le).Perm (l.enum.filter (fun p => decide (0 < cnt p.2))) :=
  List.mergeSort_perm _ _

theorem rankedBy_fst_nodup (l : List TrendTopic) (cnt : TrendTopic → Nat)
    (le : TrendTopic → TrendTopic → Bool) :
    ((rankedBy l cnt le).map Prod.fst).Nodup := by
  have h1 : ((l.enum.filter (fun p => decide (0 < cnt p.2))).map Prod.fst).Sublist
      (l.enum.map Prod.fst) := (List.filter_sublist _).map Prod.fst
  rw [List.enum_map_fst] at h1
  have h2 : ((l.enum.filter (fun p => decide (0 < cnt p.2))).map Prod.fst).Nodup :=
    (List.nodup_range _).sublist h1
  exact (((rankedBy_perm l cnt le).map Prod.fst).nodup_iff).mpr h2

theorem mem_rankedBy (l : List TrendTopic) (cnt : TrendTopic → Nat)
    (le : TrendTopic → TrendTopic → Bool) (i : Nat) (x : TrendTopic) :
    (i, x) ∈ rankedBy l cnt le ↔ (∃ h : i < l.length, x = l.get ⟨i, h⟩) ∧ 0 < cnt x := by
  rw [(rankedBy_perm l cnt le).mem_iff, List.mem_filter]
  simp only [decide_eq_true_eq]
  constructor
  · rintro ⟨henum, hc⟩
    obtain ⟨hi, hx⟩ := List.mem_enum henum
    exact ⟨⟨hi, by simpa [List.get_eq_getElem] using hx⟩, hc⟩
  · rintro ⟨⟨hi, rfl⟩, hc⟩
    refine ⟨?_, hc⟩
    have hlen : i < l.enum.length := by rwa [List.enum_length]
    have := List.getElem_enum l i hlen
    have hmem := List.getElem_mem hlen
    rw [this] at hmem
    simpa [List.get_eq_getElem] using hmem

theorem countP_enumFrom (l : List TrendTopic) (p : TrendTopic → Bool) :
    ∀ n : Nat, (List.enumFrom n l).countP (fun q => p q.2) = l.countP p := by
  induction l with
  | nil => intro n; rfl
  | cons a t ih =>
    intro n
    simp only [List.enumFrom, List.countP_cons, ih]

theorem countP_enum (l : List TrendTopic) (p : TrendTopic → Bool) :
    l.enum.countP (fun q => p q.2) = l.countP p := by
  have := countP_enumFrom l p 0
  simpa [List.enum] using this

theorem countP_assignRanks (l : List TrendTopic) (p : TrendTopic → Bool)
    (hp : ∀ (t : TrendTopic) (r1 r2 : Option Nat),
      p { t with todayRank := r1, yesterdayRank := r2 } = p t) :
    (assignRanks l).countP p = l.countP p := by
  rw [assignRanks_eq, List.countP_map]
  have h1 : List.countP
      (p ∘ fun q : Nat × TrendTopic =>
        { q.2 with
          todayRank := rankAtBy l (fun t => t.todayCount) todayLe q.1
          yesterdayRank := rankAtBy l (fun t => t.yesterdayCount) yesterdayLe q.1 }) l.enum =
      List.countP (fun q : Nat × TrendTopic => p q.2) l.enum :=
    List.countP_congr (fun q hq => by
      simp only [Function.comp_apply]
      rw [hp])
  rw [h1]
  exact countP_enum l p

theorem length_rankedBy (l : List TrendTopic) (cnt : TrendTopic → Nat)
    (le : TrendTopic → TrendTopic → Bool) :
    (rankedBy l cnt le).length = l.countP (fun t => decide (0 < cnt t)) := by
  rw [(rankedBy_perm l cnt le).length_eq, ← List.countP_eq_length_filter]
  exact countP_enum l (fun t => decide (0 < cnt t))

theorem rankAtBy_findIdx_spec (l : List TrendTopic) (cnt : TrendTopic → Nat)
    (le : TrendTopic → TrendTopic → Bool) {i n : Nat}
    (h : (rankedBy l cnt le).findIdx? (fun e => decide (e.1 = i)) = some n) :
    ∃ hn : n < (rankedBy l cnt le).length, ((rankedBy l cnt le).get ⟨n, hn⟩).1 = i := by
  rw [List.findIdx?_eq_some_iff_findIdx_eq] at h
  obtain ⟨hn, hfi⟩ := h
  have h2 := ((List.findIdx_eq hn).mp hfi).1
  simp only [decide_eq_true_eq] at h2
  exact ⟨hn, by simpa [List.get_eq_getElem] using h2⟩

theorem rankAtBy_findIdx_of (l : List TrendTopic) (cnt : TrendTopic → Nat)
    (le : TrendTopic → TrendTopic → Bool) {i n : Nat}
    (hn : n < (rankedBy l cnt le).length)
    (h : ((rankedBy l cnt le).get ⟨n, hn⟩).1 = i) :
    (rankedBy l cnt le).findIdx? (fun e => decide (e.1 = i)) = some n := by
  rw [List.findIdx?_eq_some_iff_findIdx_eq]
  refine ⟨hn, (List.findIdx_eq hn).mpr ⟨by simpa [List.get_eq_getElem] using h, ?_⟩⟩
  intro j hj
  simp only [decide_eq_false_iff_not]
  intro habs
  have hjlen : j < (rankedBy l cnt le).length := lt_trans hj hn
  have hmapj : j < ((rankedBy l cnt le).map Prod.fst).length := by simpa using hjlen
  have hmapn : n < ((rankedBy l cnt le).map Prod.fst).length := by simpa using hn
  have heq : ((rankedBy l cnt le).map Prod.fst)[j] = ((rankedBy l cnt le).map Prod.fst)[n] := by
    rw [List.getElem_map, List.getElem_map, habs]
    exact (show (rankedBy l cnt le)[n].1 = i by simpa [List.get_eq_getElem] using h).symm
  have hj_eq : j = n := ((rankedBy_fst_nodup l cnt le).getElem_inj_iff).mp heq
  omega

theorem rankAtBy_isSome_iff (l : List TrendTopic) (cnt : TrendTopic → Nat)
    (le : TrendTopic → TrendTopic → Bool) (i : Nat) (hi : i < l.length) :
    (rankAtBy l cnt le i ≠ none) ↔ 0 < cnt (l.get ⟨i, hi⟩) := by
  constructor
  · intro hne
    cases hfi : (rankedBy l cnt le).findIdx? (fun e => decide (e.1 = i)) with
    | none =>
      unfold rankAtBy at hne
      rw [hfi] at hne
      simp at hne
    | some n =>
      obtain ⟨hn, hfst⟩ := rankAtBy_findIdx_spec l cnt le hfi
      have hmem : (rankedBy l cnt le).get ⟨n, hn⟩ ∈ rankedBy l cnt le := List.get_mem _ _ _
      have hpair : (((rankedBy l cnt le).get ⟨n, hn⟩).1,
          ((rankedBy l cnt le).get ⟨n, hn⟩).2) ∈ rankedBy l cnt le := by
        simpa using hmem
      obtain ⟨⟨hlt, hx⟩, hc⟩ := (mem_rankedBy l cnt le _ _).mp hpair
      rw [hx] at hc
      have : l.get ⟨((rankedBy l cnt le).get ⟨n, hn⟩).1, hlt⟩ = l.get ⟨i, hi⟩ := by
        congr 1
        exact Fin.ext hfst
      rwa [this] at hc
  · intro hc
    have hmem : (i, l.get ⟨i, hi⟩) ∈ rankedBy l cnt le :=
      (mem_rankedBy l cnt le i _).mpr ⟨⟨hi, rfl⟩, hc⟩
    have hfi := List.findIdx?_eq_some_of_exists
      (p := fun e : Nat × TrendTopic => decide (e.1 = i))
      ⟨(i, l.get ⟨i, hi⟩), hmem, by simp⟩
    unfold rankAtBy
    rw [hfi]
    simp

theorem rankAtBy_bounds (l : List TrendTopic) (cnt : TrendTopic → Nat)
    (le : TrendTopic → TrendTopic → Bool) {i r : Nat}
    (h : rankAtBy l cnt le i = some r) :
    1 ≤ r ∧ r ≤ (rankedBy l cnt le).length := by
  unfold rankAtBy at h
  rw [Option.map_eq_some'] at h
  obtain ⟨n, hn, hr⟩ := h
  obtain ⟨hlt, _⟩ := rankAtBy_findIdx_spec l cnt le hn
  omega

theorem rankAtBy_surj (l : List TrendTopic) (cnt : TrendTopic → Nat)
    (le : TrendTopic → TrendTopic → Bool) {r : Nat} (h1 : 1 ≤ r)
    (h2 : r ≤ (rankedBy l cnt le).length) :
    ∃ (i : Nat) (hi : i < l.length), rankAtBy l cnt le i = some r := by
  have hnlt : r - 1 < (rankedBy l cnt le).length := by omega
  set e := (rankedBy l cnt le).get ⟨r - 1, hnlt⟩ with he
  have hmem : e ∈ rankedBy l cnt le := List.get_mem _ _ _
  have hpair : (e.1, e.2) ∈ rankedBy l cnt le := by simpa using hmem
  obtain ⟨⟨hi, hx⟩, hc⟩ := (mem_rankedBy l cnt le _ _).mp hpair
  refine ⟨e.1, hi, ?_⟩
  unfold rankAtBy
  rw [rankAtBy_findIdx_of l cnt le hnlt rfl]
  simp only [Option.map_some']
  congr 1
  omega

theorem rankedBy_sorted (l : List TrendTopic) (cnt : TrendTopic → Nat)
    (le : TrendTopic → TrendTopic → Bool)
    (htrans : ∀ a b c, le a b = true → le b c = true → le a c = true)
    (htot : ∀ a b, (le a b || le b a) = true) :
    (rankedBy l cnt le).Pairwise (fun p q => le p.2 q.2 = true) := by
  unfold rankedBy
  exact @List.sorted_mergeSort (Nat × TrendTopic) (fun p q => le p.2 q.2)
    (fun a b c hab hbc => htrans _ _ _ hab hbc) (fun a b => htot _ _) _

theorem rankAtBy_ordered (l : List TrendTopic) (cnt : TrendTopic → Nat)
    (le : TrendTopic → TrendTopic → Bool)
    (htrans : ∀ a b c, le a b = true → le b c = true → le a c = true)
    (htot : ∀ a b, (le a b || le b a) = true)
    {i j r s : Nat} (hi : i < l.length) (hj : j < l.length)
    (hri : rankAtBy l cnt le i = some r) (hrj : rankAtBy l cnt le j = some s)
    (hrs : r < s) :
    le (l.get ⟨i, hi⟩) (l.get ⟨j, hj⟩) = true := by
  unfold rankAtBy at hri hrj
  rw [Option.map_eq_some'] at hri hrj
  obtain ⟨n, hfin, hnr⟩ := hri
  obtain ⟨m, hfim, hms⟩ := hrj
  obtain ⟨hnlt, hfn⟩ := rankAtBy_findIdx_spec l cnt le hfin
  obtain ⟨hmlt, hfm⟩ := rankAtBy_findIdx_spec l cnt le hfim
  have hnm : n < m := by omega
  have hpw := List.pairwise_iff_getElem.mp (rankedBy_sorted l cnt le htrans htot) n m hnlt hmlt hnm
  have hn2 : ((rankedBy l cnt le).get ⟨n, hnlt⟩).2 = l.get ⟨i, hi⟩ := by
    have hpair : (((rankedBy l cnt le).get ⟨n, hnlt⟩).1,
        ((rankedBy l cnt le).get ⟨n, hnlt⟩).2) ∈ rankedBy l cnt le := by
      simpa using List.get_mem (rankedBy l cnt le) n hnlt
    obtain ⟨⟨hlt, hx⟩, _⟩ := (mem_rankedBy l cnt le _ _).mp hpair
    rw [hx]
    congr 1
    exact Fin.ext hfn
  have hm2 : ((rankedBy l cnt le).get ⟨m, hmlt⟩).2 = l.get ⟨j, hj⟩ := by
    have hpair : (((rankedBy l cnt le).get ⟨m, hmlt⟩).1,
        ((rankedBy l cnt le).get ⟨m, hmlt⟩).2) ∈ rankedBy l cnt le := by
      simpa using List.get_mem (rankedBy l cnt le) m hmlt
    obtain ⟨⟨hlt, hx⟩, _⟩ := (mem_rankedBy l cnt le _ _).mp hpair
    rw [hx]
    congr 1
    exact Fin.ext hfm
  rw [← hn2, ← hm2]
  simpa [List.get_eq_getElem] using hpw

theorem mem_assignRanks_iff (l : List TrendTopic) (t : TrendTopic) :
    t ∈ assignRanks l ↔ ∃ (i : Nat) (hi : i < l.length),
      t = { l.get ⟨i, hi⟩ with
            todayRank := rankAtBy l (fun u => u.todayCount) todayLe i
            yesterdayRank := rankAtBy l (fun u => u.yesterdayCount) yesterdayLe i } := by
  constructor
  · intro ht
    rw [List.mem_iff_getElem] at ht
    obtain ⟨i, hlen, hget⟩ := ht
    have hi : i < l.length := by rwa [length_assignRanks] at hlen
    refine ⟨i, hi, ?_⟩
    rw [← hget]
    simpa [List.get_eq_getElem] using assignRanks_getElem l i hi
  · rintro ⟨i, hi, rfl⟩
    have h := assignRanks_getElem l i hi
    rw [← h]
    exact List.get_mem _ _ _

theorem assignRanks_rank_props (l : List TrendTopic) :
    (∀ t ∈ assignRanks l,
      ((t.todayRank ≠ none) ↔ 0 < t.todayCount) ∧
      ((t.yesterdayRank ≠ none) ↔ 0 < t.yesterdayCount)) ∧
    (∀ t ∈ assignRanks l, ∀ r : Nat, t.todayRank = some r →
      1 ≤ r ∧ r ≤ (assignRanks l).countP (fun u => decide (0 < u.todayCount))) ∧
    (∀ t ∈ assignRanks l, ∀ r : Nat, t.yesterdayRank = some r →
      1 ≤ r ∧ r ≤ (assignRanks l).countP (fun u => decide (0 < u.yesterdayCount))) ∧
    (∀ r : Nat, 1 ≤ r → r ≤ (assignRanks l).countP (fun u => decide (0 < u.todayCount)) →
      ∃ t ∈ assignRanks l, t.todayRank = some r) ∧
    (∀ r : Nat, 1 ≤ r → r ≤ (assignRanks l).countP (fun u => decide (0 < u.yesterdayCount)) →
      ∃ t ∈ assignRanks l, t.yesterdayRank = some r) ∧
    (∀ t ∈ assignRanks l, ∀ u ∈ assignRanks l, ∀ r s : Nat,
      t.todayRank = some r → u.todayRank = some s → r < s →
      u.todayCount < t.todayCount ∨ (t.todayCount = u.todayCount ∧ u.score ≤ t.score)) ∧
    (∀ t ∈ assignRanks l, ∀ u ∈ assignRanks l, ∀ r s : Nat,
      t.yesterdayRank = some r → u.yesterdayRank = some s → r < s →
      u.yesterdayCount < t.yesterdayCount ∨
        (t.yesterdayCount = u.yesterdayCount ∧ u.totalCount ≤ t.totalCount)) := by
  have hcntT : (assignRanks l).countP (fun u => decide (0 < u.todayCount)) =
      (rankedBy l (fun u => u.todayCount) todayLe).length := by
    rw [length_rankedBy, countP_assignRanks]
    intro t r1 r2
    rfl
  have hcntY : (assignRanks l).countP (fun u => decide (0 < u.yesterdayCount)) =
      (rankedBy l (fun u => u.yesterdayCount) yesterdayLe).length := by
    rw [length_rankedBy, countP_assignRanks]
    intro t r1 r2
    rfl
  refine ⟨?_, ?_, ?_, ?_, ?_, ?_, ?_⟩
  · intro t ht
    obtain ⟨i, hi, rfl⟩ := (mem_assignRanks_iff l t).mp ht
    exact ⟨rankAtBy_isSome_iff l _ todayLe i hi, rankAtBy_isSome_iff l _ yesterdayLe i hi⟩
  · intro t ht r hr
    obtain ⟨i, hi, rfl⟩ := (mem_assignRanks_iff l t).mp ht
    rw [hcntT]
    exact rankAtBy_bounds l _ todayLe hr
  · intro t ht r hr
    obtain ⟨i, hi, rfl⟩ := (mem_assignRanks_iff l t).mp ht
    rw [hcntY]
    exact rankAtBy_bounds l _ yesterdayLe hr
  · intro r h1 h2
    rw [hcntT] at h2
    obtain ⟨i, hi, hrank⟩ := rankAtBy_surj l (fun u => u.todayCount) todayLe h1 h2
    exact ⟨_, (mem_assignRanks_iff l _).mpr ⟨i, hi, rfl⟩, hrank⟩
  · intro r h1 h2
    rw [hcntY] at h2
    obtain ⟨i, hi, hrank⟩ := rankAtBy_surj l (fun u => u.yesterdayCount) yesterdayLe h1 h2
    exact ⟨_, (mem_assignRanks_iff l _).mpr ⟨i, hi, rfl⟩, hrank⟩
  · intro t ht u hu r s hr hs hrs
    obtain ⟨i, hi, rfl⟩ := (mem_assignRanks_iff l t).mp ht
    obtain ⟨j, hj, rfl⟩ := (mem_assignRanks_iff l u).mp hu
    have := rankAtBy_ordered l (fun u => u.todayCount) todayLe todayLe_trans todayLe_total
      hi hj hr hs hrs
    rw [todayLe_iff] at this
    exact this
  · intro t ht u hu r s hr hs hrs
    obtain ⟨i, hi, rfl⟩ := (mem_assignRanks_iff l t).mp ht
    obtain ⟨j, hj, rfl⟩ := (mem_assignRanks_iff l u).mp hu
    have := rankAtBy_ordered l (fun u => u.yesterdayCount) yesterdayLe yesterdayLe_trans
      yesterdayLe_total hi hj hr hs hrs
    rw [yesterdayLe_iff] at this
    exact this

unseal Rat.inv Rat.mul Rat.add Rat.sub Nat.gcd List.merge List.mergeSort in
/-- Claim C3: in the list returned by `buildTrendTopics`, `todayRank` is
assigned 1-based over exactly the topics with positive `todayCount`,
ordered by `todayCount` descending then `score` descending, and
`yesterdayRank` over exactly the topics with positive `yesterdayCount`,
ordered by `yesterdayCount` descending then `totalCount` descending; every
topic outside the respective filter keeps a `null` rank.  For three topics
with todayCounts 10, 10, 4 and scores 5, 7, 9 the today-rank order is
B, A, C. -/
theorem claim_C3 :
    (∀ (topics : List EmergingTopic) (category : String) (todayDate : Int),
      (∀ t ∈ buildTrendTopics topics category todayDate,
        ((t.todayRank ≠ none) ↔ 0 < t.todayCount) ∧
        ((t.yesterdayRank ≠ none) ↔ 0 < t.yesterdayCount)) ∧
      (∀ t ∈ buildTrendTopics topics category todayDate, ∀ r : Nat, t.todayRank = some r →
        1 ≤ r ∧ r ≤ (buildTrendTopics topics category todayDate).countP
          (fun u => decide (0 < u.todayCount))) ∧
      (∀ t ∈ buildTrendTopics topics category todayDate, ∀ r : Nat, t.yesterdayRank = some r →
        1 ≤ r ∧ r ≤ (buildTrendTopics topics category todayDate).countP
          (fun u => decide (0 < u.yesterdayCount))) ∧
      (∀ r : Nat, 1 ≤ r →
        r ≤ (buildTrendTopics topics category todayDate).countP
          (fun u => decide (0 < u.todayCount)) →
        ∃ t ∈ buildTrendTopics topics category todayDate, t.todayRank = some r) ∧
      (∀ r : Nat, 1 ≤ r →
        r ≤ (buildTrendTopics topics category todayDate).countP
          (fun u => decide (0 < u.yesterdayCount)) →
        ∃ t ∈ buildTrendTopics topics category todayDate, t.yesterdayRank = some r) ∧
      (∀ t ∈ buildTrendTopics topics category todayDate,
        ∀ u ∈ buildTrendTopics topics category todayDate, ∀ r s : Nat,
        t.todayRank = some r → u.todayRank = some s → r < s →
        u.todayCount < t.todayCount ∨ (t.todayCount = u.todayCount ∧ u.score ≤ t.score)) ∧
      (∀ t ∈ buildTrendTopics topics category todayDate,
        ∀ u ∈ buildTrendTopics topics category todayDate, ∀ r s : Nat,
        t.yesterdayRank = some r → u.yesterdayRank = some s → r < s →
        u.yesterdayCount < t.yesterdayCount ∨
          (t.yesterdayCount = u.yesterdayCount ∧ u.totalCount ≤ t.totalCount))) ∧
    ((buildTrendTopics rankDemoRows "c" 10).map (fun t => (t.title, t.todayRank))) =
      [("alpha bravo", some 2), ("delta echo", some 1), ("foxtrot golf", some 3)] := by
  refine ⟨?_, by decide⟩
  intro topics category todayDate
  exact assignRanks_rank_props _

unseal Rat.inv Rat.mul Rat.add Rat.sub Nat.gcd List.merge List.mergeSort in
theorem claim_C3_witness :
    (((buildTrendTopics rankDemoRows "c" 10)[0]!).todayRank ≠ none) ↔
      0 < ((buildTrendTopics rankDemoRows "c" 10)[0]!).todayCount :=
  (((claim_C3.1 rankDemoRows "c" 10).1 _ (by decide))).1

end Pulse
